import Mathlib

/-!
Verification development for the `ghost` animatronic controller
(`src/ghost/ghost.py` and `src/ghost/hw/audio.py`).

The edge-to-gesture classifier (`input_monitor`), the resync monitor, the
dispatcher-level helpers, the states used by the claims (`SleepState`,
`DiceState`), the selection algorithm (`WeightedHistoryShuffler`), the
playback coordinator (`play_audio`) and the transition protocol
(`StateManager.set_state`) are shallowly embedded as pure Lean functions.

Modelling conventions:
* Times are integers measured in milliseconds (the Python source uses
  float seconds from `time.monotonic()`; every timing constant in the
  source is an exact multiple of 1 ms, so the conversion is exact, and the
  classifier only ever compares differences of timestamps against these
  constants).
* Each iteration of the `input_monitor` loop reads `time.monotonic()`
  several times; the reads of one iteration are all within microseconds of
  each other and are modelled by the single per-tick value `Tick.now`.
  An edge's own timestamp (set in the GPIO callback) stays separate, as in
  the source.
* The GPIO raw levels read by the resync code are part of each `Tick`.
-/

namespace Ghost

/-- The two physical push buttons, `"B1"` and `"B2"` in the source. -/
inductive Button
  | B1
  | B2
deriving DecidableEq, Repr

/-- Counterpart of `other = "B2" if btn == "B1" else "B1"`. -/
def Button.other : Button → Button
  | .B1 => .B2
  | .B2 => .B1

/-- Gestures posted to the event queue (`B1_TAP`, `B1_DOUBLE`, `B1_5TAP`,
`B1_HOLD`, symmetrically for `B2`, and `B1B2_CHORD`). -/
inductive Event
  | tap (b : Button)
  | double (b : Button)
  | fiveTap (b : Button)
  | hold (b : Button)
  | chord
deriving DecidableEq, Repr

/-- `MIN_PULSE_MS = 20`. -/
def MIN_PULSE_MS : ℤ := 20
/-- `TAP_DECISION = 0.70` seconds, in ms. -/
def TAP_DECISION : ℤ := 700
/-- `HOLD_MS_BY_BTN = {"B1": 800, "B2": 3000}`. -/
def HOLD_MS : Button → ℤ
  | .B1 => 800
  | .B2 => 3000
/-- `CHORD_GRACE_MS = 180`. -/
def CHORD_GRACE_MS : ℤ := 180
/-- `CHORD_TAP_SUPPRESS_WINDOW = 0.75` seconds, in ms. -/
def CHORD_TAP_SUPPRESS : ℤ := 750
/-- `hold_cooldown_sec = 1.5` seconds, in ms. -/
def HOLD_COOLDOWN : ℤ := 1500
/-- `CHORD_TIMEOUT = 1.0` seconds, in ms. -/
def CHORD_TIMEOUT : ℤ := 1000
/-- `RESYNC_SAMPLE_MS = 30`. -/
def RESYNC_SAMPLE_MS : ℤ := 30
/-- `RESYNC_COOLDOWN_MS = 120`. -/
def RESYNC_COOLDOWN_MS : ℤ := 120

/-- Per-button state of `input_monitor`: the dictionaries `press_time`,
`tap_count`, `decide_at`, `down`, `tap_suppress_until`, the global
`last_hold_time`, and the resync-monitor dictionaries `_last_raw`,
`_raw_stable_since`, `_last_synth_time`, all keyed by this button. -/
structure Track where
  press_time : Option ℤ
  tap_count : ℕ
  decide_at : Option ℤ
  down : Bool
  tap_suppress_until : ℤ
  last_hold : ℤ
  last_raw : Bool
  raw_stable_since : ℤ
  last_synth : ℤ
deriving DecidableEq, Repr

/-- Whole-classifier state: both button tracks plus the chord variables
`chord_armed`, `chord_pending`, `chord_detect_time` and the global
`last_chord_time`. -/
structure MonState where
  b1 : Track
  b2 : Track
  chord_armed : Bool
  chord_pending : Bool
  chord_detect_time : Option ℤ
  last_chord_time : ℤ
deriving DecidableEq, Repr

/-- Look up the track of a button. -/
def MonState.trk (s : MonState) : Button → Track
  | .B1 => s.b1
  | .B2 => s.b2

/-- Replace the track of a button. -/
def MonState.setTrk (s : MonState) : Button → Track → MonState
  | .B1, t => { s with b1 := t }
  | .B2, t => { s with b2 := t }

/-- Initial classifier state: `press_time = None`, `tap_count = 0`,
`decide_at = None`, `down = False`, `tap_suppress_until = 0.0`,
`last_hold_time = 0.0`, resync trackers initialised from a released line at
time 0, `chord_armed = True`, `chord_pending = False`,
`chord_detect_time = None`, `last_chord_time = 0.0`. -/
def initTrack : Track :=
  { press_time := none, tap_count := 0, decide_at := none, down := false
    tap_suppress_until := 0, last_hold := 0
    last_raw := false, raw_stable_since := 0, last_synth := 0 }

def initState : MonState :=
  { b1 := initTrack, b2 := initTrack, chord_armed := true
    chord_pending := false, chord_detect_time := none, last_chord_time := 0 }

/-- The "Re-arm chord once both are up" block executed on a RELEASE edge
(ghost.py lines 1192-1208): when both buttons are up, a pending chord posts
`B1B2_CHORD`, zeroes both tap tallies and decision deadlines, records
`last_chord_time`, clears the pending flag, and (in all cases) re-arms
chord detection. -/
def rearmAndResolve (s : MonState) (now : ℤ) : MonState × List Event :=
  if !(s.trk .B1).down && !(s.trk .B2).down then
    if s.chord_pending then
      ({ s with
          b1 := { s.b1 with tap_count := 0, decide_at := none }
          b2 := { s.b2 with tap_count := 0, decide_at := none }
          last_chord_time := now
          chord_pending := false
          chord_detect_time := none
          chord_armed := true }, [Event.chord])
    else ({ s with chord_armed := true }, [])
  else (s, [])

/-- Pulse classification on a real RELEASE edge (ghost.py lines 1210-1244):
short pulses are ignored, pulses at or above the per-button hold threshold
emit a Hold (suppressed for B1 right after a chord) and start the tap
cooldown, and intermediate pulses tally a tap and (re)set the decision
deadline `t + TAP_DECISION`, unless a chord is pending or recent or the
button is inside its post-hold cooldown. `t` is the (clamped) edge
timestamp, `now` the monotonic clock of this loop iteration. -/
def classifyRelease (s : MonState) (b : Button) (pulse_ms t now : ℤ) :
    MonState × List Event :=
  if pulse_ms < MIN_PULSE_MS then (s, [])
  else if HOLD_MS b ≤ pulse_ms then
    let tr := s.trk b
    let s1 := s.setTrk b
      { tr with tap_count := 0, decide_at := none
                tap_suppress_until := now + HOLD_COOLDOWN, last_hold := now }
    match b with
    | .B1 =>
        if now - s1.last_chord_time < CHORD_TAP_SUPPRESS then (s1, [])
        else (s1, [Event.hold .B1])
    | .B2 => (s1, [Event.hold .B2])
  else
    if !s.chord_pending && !decide (now - s.last_chord_time < CHORD_TAP_SUPPRESS) then
      if (s.trk b).tap_suppress_until ≤ now then
        let tr := s.trk b
        (s.setTrk b
          { tr with tap_count := tr.tap_count + 1
                    decide_at := some (t + TAP_DECISION) }, [])
      else (s, [])
    else (s, [])

/-- Processing of a PRESS edge (ghost.py lines 1156-1169): record the
down state and press time; if the other button is down with a recorded
press time and the two presses are within the chord grace window while
detection is armed, mark the chord pending and disarm detection. -/
def processPress (s : MonState) (b : Button) (t now : ℤ) : MonState × List Event :=
  let tr := s.trk b
  let s1 := s.setTrk b { tr with down := true, press_time := some t }
  let so := s1.trk b.other
  if so.down then
    match so.press_time with
    | some tpo =>
        if |t - tpo| ≤ CHORD_GRACE_MS ∧ s1.chord_armed = true then
          ({ s1 with chord_pending := true, chord_detect_time := some now
                     chord_armed := false }, [])
        else (s1, [])
    | none => (s1, [])
  else (s1, [])

/-- Processing of a RELEASE edge (ghost.py lines 1171-1244): an orphan
release (no recorded press) forces the up state and clears the tap logic;
otherwise a stale timestamp is clamped up to the press time, the pulse
duration computed, the down state cleared, the chord resolution block run,
and the pulse classified. -/
def processRelease (s : MonState) (b : Button) (t now : ℤ) : MonState × List Event :=
  let tr := s.trk b
  match tr.press_time with
  | none =>
      (s.setTrk b { tr with down := false, press_time := none
                            decide_at := none, tap_count := 0 }, [])
  | some tp =>
      let tc := if t < tp then tp else t
      let pulse := tc - tp
      let s1 := s.setTrk b { tr with down := false, press_time := none }
      let r2 := rearmAndResolve s1 now
      let r3 := classifyRelease r2.1 b pulse tc now
      (r3.1, r2.2 ++ r3.2)

/-- An edge as delivered by the GPIO callback: `(btn, level_high, t)` with
`level_high = true` for a press. -/
structure Edge where
  btn : Button
  isPress : Bool
  t : ℤ
deriving DecidableEq, Repr

def processEdge (s : MonState) (e : Edge) (now : ℤ) : MonState × List Event :=
  if e.isPress then processPress s e.btn e.t now else processRelease s e.btn e.t now

/-- The decide helper (ghost.py lines 1114-1131): translate the tap tally
into an event and reset the tally and deadline. For either button a tally
of at least 5 gives a FiveTap, 2 to 4 a Double, exactly 1 a Tap. -/
def decideB (s : MonState) (b : Button) : MonState × List Event :=
  let tr := s.trk b
  let n := tr.tap_count
  let s1 := s.setTrk b { tr with tap_count := 0, decide_at := none }
  if 5 ≤ n then (s1, [Event.fiveTap b])
  else if 2 ≤ n then (s1, [Event.double b])
  else if n = 1 then (s1, [Event.tap b])
  else (s1, [])

/-- Finalisation of one button's deferred tap decision (ghost.py lines
1248-1256): when the deadline has elapsed, either suppress it (zeroing the
tally) if a chord resolved less than `CHORD_TAP_SUPPRESS` ago, or run the
decide helper. -/
def finalizeOne (s : MonState) (b : Button) (now2 : ℤ) : MonState × List Event :=
  let tr := s.trk b
  match tr.decide_at with
  | none => (s, [])
  | some d =>
      if d ≤ now2 then
        if now2 - s.last_chord_time < CHORD_TAP_SUPPRESS then
          (s.setTrk b { tr with tap_count := 0, decide_at := none }, [])
        else decideB s b
      else (s, [])

def finalizeDecisions (s : MonState) (now2 : ℤ) : MonState × List Event :=
  let r1 := finalizeOne s .B1 now2
  let r2 := finalizeOne r1.1 .B2 now2
  (r2.1, r1.2 ++ r2.2)

/-- The chord-pending timeout (ghost.py lines 1259-1264): a pending chord
whose detection time is a truthy float and lies more than `CHORD_TIMEOUT`
in the past is discarded and detection re-armed. -/
def chordTimeoutCheck (s : MonState) (now : ℤ) : MonState :=
  if s.chord_pending then
    match s.chord_detect_time with
    | some cdt =>
        if cdt ≠ 0 ∧ CHORD_TIMEOUT < now - cdt then
          { s with chord_pending := false, chord_detect_time := none
                   chord_armed := true }
        else s
    | none => s
  else s

/-- Raw-stability bookkeeping of the resync monitor (ghost.py lines
1292-1295): when the raw level changed since the previous tick, record the
new level and restart the stability timer. -/
def rawUpdate (tr : Track) (raw : Bool) (now : ℤ) : Track :=
  if raw ≠ tr.last_raw then { tr with last_raw := raw, raw_stable_since := now }
  else tr

/-- The `can_synthesize` guard (ghost.py lines 1297-1301): the raw level
must have been unchanged for at least `RESYNC_SAMPLE_MS` and at least
`RESYNC_COOLDOWN_MS` must have passed since the last synthesized edge for
this button. -/
def canSynth (tr : Track) (now : ℤ) : Bool :=
  decide (RESYNC_SAMPLE_MS ≤ now - tr.raw_stable_since) &&
  decide (RESYNC_COOLDOWN_MS ≤ now - tr.last_synth)

/-- Pulse of a synthesized release (ghost.py line 1325): clamped to be
non-negative; if no press time is recorded the current instant is used. -/
def synPulse (pt : Option ℤ) (now : ℤ) : ℤ :=
  max 0 (now - pt.getD now)

/-- Pulse classification of a synthesized release (ghost.py lines
1342-1370). The source duplicates the classification code of a real
release with the edge timestamp replaced by `t_now`; it is embedded
separately so that its agreement with `classifyRelease` is a theorem, not
a modelling choice. -/
def synClassifyRelease (s : MonState) (b : Button) (pulse_ms now : ℤ) :
    MonState × List Event :=
  if pulse_ms < MIN_PULSE_MS then (s, [])
  else if HOLD_MS b ≤ pulse_ms then
    let tr := s.trk b
    let s1 := s.setTrk b
      { tr with tap_count := 0, decide_at := none
                tap_suppress_until := now + HOLD_COOLDOWN, last_hold := now }
    match b with
    | .B1 =>
        if now - s1.last_chord_time < CHORD_TAP_SUPPRESS then (s1, [])
        else (s1, [Event.hold .B1])
    | .B2 => (s1, [Event.hold .B2])
  else
    if !s.chord_pending && !decide (now - s.last_chord_time < CHORD_TAP_SUPPRESS) then
      if (s.trk b).tap_suppress_until ≤ now then
        let tr := s.trk b
        (s.setTrk b
          { tr with tap_count := tr.tap_count + 1
                    decide_at := some (now + TAP_DECISION) }, [])
      else (s, [])
    else (s, [])

/-- One button's turn in the resync loop (ghost.py lines 1303-1371): a
missing PRESS is synthesized when the raw level is high but the believed
state is up; a missing RELEASE when the raw level is low but the believed
state is down; both guarded by `canSynth`. The third component lists the
synthesized edges `(button, isPress)`. -/
def synthForButton (s : MonState) (b : Button) (raw_b : Bool) (now : ℤ) :
    MonState × List Event × List (Button × Bool) :=
  let tr := s.trk b
  if raw_b && !tr.down && canSynth tr now then
    let s1 := s.setTrk b { tr with down := true, press_time := some now, last_synth := now }
    let so := s1.trk b.other
    let s2 :=
      if so.down then
        match so.press_time with
        | some tpo =>
            if |now - tpo| ≤ CHORD_GRACE_MS ∧ s1.chord_armed = true then
              { s1 with chord_pending := true, chord_detect_time := some now
                        chord_armed := false }
            else s1
        | none => s1
      else s1
    (s2, [], [(b, true)])
  else if !raw_b && tr.down && canSynth tr now then
    let pulse := synPulse tr.press_time now
    let s1 := s.setTrk b { tr with down := false, last_synth := now }
    let r2 := rearmAndResolve s1 now
    let r3 := synClassifyRelease r2.1 b pulse now
    let tr3 := r3.1.trk b
    (r3.1.setTrk b { tr3 with press_time := none }, r2.2 ++ r3.2, [(b, false)])
  else (s, [], [])

/-- The whole resync block of one loop iteration (ghost.py lines
1266-1371): update the raw-stability trackers for both buttons, then run
the synthesis loop over B1 followed by B2. -/
def resyncTick (s : MonState) (raw1 raw2 : Bool) (now : ℤ) :
    MonState × List Event × List (Button × Bool) :=
  let sa := s.setTrk .B1 (rawUpdate (s.trk .B1) raw1 now)
  let s0 := sa.setTrk .B2 (rawUpdate (sa.trk .B2) raw2 now)
  let rA := synthForButton s0 .B1 raw1 now
  let rB := synthForButton rA.1 .B2 raw2 now
  (rB.1, rA.2.1 ++ rB.2.1, rA.2.2 ++ rB.2.2)

/-- One scheduler tick's worth of input: at most one drained edge, the two
raw GPIO levels, and the monotonic clock of this iteration. -/
structure Tick where
  edge : Option Edge
  raw1 : Bool
  raw2 : Bool
  now : ℤ
deriving DecidableEq, Repr

/-- Steps 1-4 of one `input_monitor` iteration: process the drained edge
(if any), finalize elapsed tap decisions, and run the chord timeout
check. -/
def classifyStep (s : MonState) (tk : Tick) : MonState × List Event :=
  let r1 := match tk.edge with
            | some e => processEdge s e tk.now
            | none => (s, [])
  let r2 := finalizeDecisions r1.1 tk.now
  (chordTimeoutCheck r2.1 tk.now, r1.2 ++ r2.2)

/-- One full `input_monitor` loop iteration: classification (steps 1-4)
followed by the resync block (step 4b). -/
def stepFull (s : MonState) (tk : Tick) :
    MonState × List Event × List (Button × Bool) :=
  let rc := classifyStep s tk
  let rr := resyncTick rc.1 tk.raw1 tk.raw2 tk.now
  (rr.1, rc.2 ++ rr.2.1, rr.2.2)

/-- A whole run of the monitor over a list of ticks, collecting the posted
events and the synthesized edges in order. -/
def runFull (s : MonState) : List Tick → MonState × List Event × List (Button × Bool)
  | [] => (s, [], [])
  | tk :: rest =>
      let r1 := stepFull s tk
      let r2 := runFull r1.1 rest
      (r2.1, r1.2.1 ++ r2.2.1, r1.2.2 ++ r2.2.2)

/-- Per-tick raw-level consistency: the raw GPIO levels sampled by the
resync block agree with the classifier's believed state after this tick's
edge processing — the hardware delivered every edge, so the resync monitor
has nothing to repair this tick. -/
def rawTickOk (s : MonState) (tk : Tick) : Bool :=
  (tk.raw1 == ((classifyStep s tk).1.trk .B1).down) &&
  (tk.raw2 == ((classifyStep s tk).1.trk .B2).down)

/-- Decidable run condition: `rawTickOk` holds at every tick of the run. -/
def rawOk (s : MonState) : List Tick → Bool
  | [] => true
  | tk :: rest => rawTickOk s tk && rawOk (stepFull s tk).1 rest

/-- Per-tick debounce condition: if this tick carries a release edge that
closes a recorded press, the pulse is shorter than `MIN_PULSE_MS`. -/
def shortTick (s : MonState) (tk : Tick) : Bool :=
  match tk.edge with
  | some e =>
      if e.isPress then true
      else match (s.trk e.btn).press_time with
           | some tp => decide (e.t - tp < MIN_PULSE_MS)
           | none => true
  | none => true

/-- Decidable run condition: every pulse in the run is shorter than the
debounce floor. -/
def shortPulsesOk (s : MonState) : List Tick → Bool
  | [] => true
  | tk :: rest => shortTick s tk && shortPulsesOk (stepFull s tk).1 rest

/-- Events that claim C2 forbids during a chord interaction. -/
def tapOrDouble : Event → Bool
  | .tap _ => true
  | .double _ => true
  | _ => false

def rawFor (raw1 raw2 : Bool) : Button → Bool
  | .B1 => raw1
  | .B2 => raw2

def ctA : Tick := ⟨some ⟨.B1, true, 10000⟩, true, false, 10000⟩

def ctB : Tick := ⟨none, true, false, 10150⟩

def ctC : Tick := ⟨some ⟨.B1, false, 10200⟩, true, false, 10200⟩

def resyncPreState : MonState := (classifyStep (runFull initState [ctA, ctB]).1 ctC).1

structure AudioEnv where
  fileExists : Bool
  adapterOk : Bool
  sim : Bool
  pygameOk : Bool
  interruptDuringPlay : Bool
  interruptable : Bool
deriving DecidableEq, Repr

inductive PlayOutcome
  | noFile
  | adapterDone
  | noFallback
  | fallbackDone
  | fallbackStopped
  | fallbackError
deriving DecidableEq, Repr

def play_audio (e : AudioEnv) : PlayOutcome :=
  if !e.fileExists then .noFile
  else if e.adapterOk then .adapterDone
  else if e.sim then .noFallback
  else if !e.pygameOk then .fallbackError
  else if e.interruptable && e.interruptDuringPlay then .fallbackStopped
  else .fallbackDone

structure SysCtl where
  interrupt : Bool
  queue : List Event
  runStarted : Bool
deriving DecidableEq, Repr

def drainQueue : List Event → List Event
  | [] => []
  | _ :: rest => drainQueue rest

def set_state_trace (s : SysCtl) : List SysCtl :=
  let s1 := { s with interrupt := true }
  let s2 := { s1 with interrupt := false }
  let s3 := { s2 with queue := drainQueue s2.queue }
  let s4 := { s3 with runStarted := true }
  [s1, s2, s3, s4]

def set_state (s : SysCtl) : SysCtl :=
  let s1 := { s with interrupt := true }
  let s2 := { s1 with interrupt := false }
  let s3 := { s2 with queue := drainQueue s2.queue }
  { s3 with runStarted := true }

def SLEEP_TAP_WINDOW : ℤ := 600

structure SleepSt where
  wake_taps : ℕ
  last_tap_time : ℤ
  settle_until : ℤ
  wake_requested : Bool
deriving DecidableEq, Repr

def sleepInit (t0 : ℤ) : SleepSt :=
  { wake_taps := 0, last_tap_time := 0, settle_until := t0 + 500, wake_requested := false }

def sleepWake (s : SleepSt) : SleepSt :=
  if s.wake_requested then s else { s with wake_requested := true }

def sleepHandle (s : SleepSt) (e : Event) (now : ℤ) : SleepSt :=
  if now < s.settle_until then s
  else
    match e with
    | .fiveTap .B1 => sleepWake s
    | .tap .B1 =>
        let c := if now - s.last_tap_time < SLEEP_TAP_WINDOW then s.wake_taps + 1 else 1
        let s2 := { s with wake_taps := c, last_tap_time := now }
        if 5 ≤ c then sleepWake s2 else s2
    | _ => s

def tapRun (s : SleepSt) : List ℤ → SleepSt
  | [] => s
  | t :: rest => tapRun (sleepHandle s (.tap .B1) t) rest

def hits5 : ℕ → ℤ → List ℤ → Bool
  | _, _, [] => false
  | c, l, t :: rest =>
      decide (5 ≤ (if t - l < SLEEP_TAP_WINDOW then c + 1 else 1)) ||
      hits5 (if t - l < SLEEP_TAP_WINDOW then c + 1 else 1) t rest

def winStep (a b : ℤ) : Prop := b - a < SLEEP_TAP_WINDOW

def hasWakeWindow (ts : List ℤ) : Prop :=
  ∃ p w r, ts = p ++ w ++ r ∧ w.length = 5 ∧ w.Chain' winStep

structure Shuffler where
  items : List ℕ
  plays : ℕ → ℕ
  last_pick_idx : ℕ → ℤ
  pick_counter : ℤ
  recent : List ℕ
  recent_window : ℕ
  unheard_boost : ℚ
  age_boost : ℚ
  recent_penalty : ℚ
  min_weight : ℚ

def mkShuffler (items : List ℕ) (rw : ℕ) : Shuffler :=
  { items := items
    plays := fun _ => 0
    last_pick_idx := fun _ => -(10 ^ 9)
    pick_counter := 0
    recent := []
    recent_window := rw
    unheard_boost := 2
    age_boost := 15 / 100
    recent_penalty := 10 / 100
    min_weight := 5 / 100 }

def weight (s : Shuffler) (item : ℕ) : ℚ :=
  let age : ℤ := max 0 (s.pick_counter - s.last_pick_idx item)
  let unheard : ℚ := if s.plays item = 0 then 1 else 0
  let base : ℚ := 1 / (1 + (s.plays item : ℚ))
  let w0 := base * (1 + s.unheard_boost * unheard) * (1 + s.age_boost * (age : ℚ))
  let w1 := if item ∈ s.recent then w0 * max 0 (1 - s.recent_penalty) else w0
  max s.min_weight w1

def pushRecent (r : List ℕ) (win : ℕ) (x : ℕ) : List ℕ :=
  let r2 := r ++ [x]
  if win < r2.length then r2.drop (r2.length - win) else r2

def note_pick (s : Shuffler) (item : ℕ) : Shuffler :=
  { s with
      plays := fun i => if i = item then s.plays i + 1 else s.plays i
      last_pick_idx := fun i => if i = item then s.pick_counter else s.last_pick_idx i
      recent := pushRecent s.recent s.recent_window item
      pick_counter := s.pick_counter + 1 }

def observeM (s : Shuffler) (item : ℕ) : Shuffler × Bool :=
  if item ∈ s.items then (note_pick s item, false) else (s, true)

def nextSupport (s : Shuffler) : List ℕ :=
  s.items.filter (fun i => decide (0 < weight s i))

inductive DiceMode
  | selection
  | result
deriving DecidableEq, Repr

structure DiceSt where
  selected_index : ℕ
  mode : DiceMode
  last_result : Option ℕ
  settle_until : ℤ
  interrupt : Bool
deriving DecidableEq, Repr

def MAX_VALS : List ℕ := [20, 12, 10, 8, 6, 4, 100]

def dice_names : List String := ["d20", "d12", "d10", "d8", "d6", "d4", "d100"]

def diceInit (t0 : ℤ) (intr : Bool) : DiceSt :=
  { selected_index := 0, mode := .selection, last_result := none
    settle_until := t0 + 250, interrupt := intr }

def rollCurrent (s : DiceSt) (interrupted : Bool) (r : ℕ) : DiceSt :=
  if interrupted then { s with mode := .selection }
  else { s with last_result := some r, mode := .result }

def diceHandle (s : DiceSt) (e : Event) (now : ℤ) (interrupted : Bool) (r : ℕ) :
    DiceSt :=
  if now < s.settle_until then s
  else
    match e with
    | .double .B1 => { s with interrupt := false }
    | .double .B2 =>
        { s with interrupt := false, selected_index := 0, mode := .selection }
    | .tap .B1 =>
        (match s.mode with
         | .selection => rollCurrent s interrupted r
         | .result => rollCurrent s interrupted r)
    | .tap .B2 =>
        (match s.mode with
         | .selection =>
             { s with selected_index := (s.selected_index + 1) % dice_names.length }
         | .result => { s with mode := .selection })
    | _ => s

theorem Button.other_other (b : Button) : b.other.other = b := by
  cases b <;> rfl

@[simp] theorem trk_setTrk_same (s : MonState) (b : Button) (t : Track) :
    (s.setTrk b t).trk b = t := by
  cases b <;> rfl

@[simp] theorem trk_setTrk_other (s : MonState) (b : Button) (t : Track) :
    (s.setTrk b t).trk b.other = s.trk b.other := by
  cases b <;> rfl

theorem trk_setTrk_ne (s : MonState) (b b' : Button) (t : Track) (h : b' ≠ b) :
    (s.setTrk b t).trk b' = s.trk b' := by
  cases b <;> cases b' <;> first | rfl | exact absurd rfl h

@[simp] theorem trk_B1 (s : MonState) : s.trk .B1 = s.b1 := rfl
@[simp] theorem trk_B2 (s : MonState) : s.trk .B2 = s.b2 := rfl
@[simp] theorem setTrk_B1 (s : MonState) (t : Track) :
    s.setTrk .B1 t = { s with b1 := t } := rfl
@[simp] theorem setTrk_B2 (s : MonState) (t : Track) :
    s.setTrk .B2 t = { s with b2 := t } := rfl
@[simp] theorem other_B1 : Button.other .B1 = .B2 := rfl
@[simp] theorem other_B2 : Button.other .B2 = .B1 := rfl

@[simp] theorem setTrk_chord_armed (s : MonState) (b : Button) (t : Track) :
    (s.setTrk b t).chord_armed = s.chord_armed := by cases b <;> rfl
@[simp] theorem setTrk_chord_pending (s : MonState) (b : Button) (t : Track) :
    (s.setTrk b t).chord_pending = s.chord_pending := by cases b <;> rfl
@[simp] theorem setTrk_chord_detect_time (s : MonState) (b : Button) (t : Track) :
    (s.setTrk b t).chord_detect_time = s.chord_detect_time := by cases b <;> rfl
@[simp] theorem setTrk_last_chord_time (s : MonState) (b : Button) (t : Track) :
    (s.setTrk b t).last_chord_time = s.last_chord_time := by cases b <;> rfl

@[simp] theorem rawUpdate_press_time (tr : Track) (raw : Bool) (now : ℤ) :
    (rawUpdate tr raw now).press_time = tr.press_time := by
  unfold rawUpdate; split <;> rfl
@[simp] theorem rawUpdate_tap_count (tr : Track) (raw : Bool) (now : ℤ) :
    (rawUpdate tr raw now).tap_count = tr.tap_count := by
  unfold rawUpdate; split <;> rfl
@[simp] theorem rawUpdate_decide_at (tr : Track) (raw : Bool) (now : ℤ) :
    (rawUpdate tr raw now).decide_at = tr.decide_at := by
  unfold rawUpdate; split <;> rfl
@[simp] theorem rawUpdate_down (tr : Track) (raw : Bool) (now : ℤ) :
    (rawUpdate tr raw now).down = tr.down := by
  unfold rawUpdate; split <;> rfl
@[simp] theorem rawUpdate_tap_suppress_until (tr : Track) (raw : Bool) (now : ℤ) :
    (rawUpdate tr raw now).tap_suppress_until = tr.tap_suppress_until := by
  unfold rawUpdate; split <;> rfl
@[simp] theorem rawUpdate_last_hold (tr : Track) (raw : Bool) (now : ℤ) :
    (rawUpdate tr raw now).last_hold = tr.last_hold := by
  unfold rawUpdate; split <;> rfl
@[simp] theorem rawUpdate_last_synth (tr : Track) (raw : Bool) (now : ℤ) :
    (rawUpdate tr raw now).last_synth = tr.last_synth := by
  unfold rawUpdate; split <;> rfl


theorem runFull_nil (s : MonState) : runFull s [] = (s, [], []) := rfl

theorem runFull_cons (s : MonState) (tk : Tick) (rest : List Tick) :
    runFull s (tk :: rest) =
      ((runFull (stepFull s tk).1 rest).1,
       (stepFull s tk).2.1 ++ (runFull (stepFull s tk).1 rest).2.1,
       (stepFull s tk).2.2 ++ (runFull (stepFull s tk).1 rest).2.2) := rfl

/-- One tick pressing button `b` while both buttons are up and no chord is
pending: nothing is posted, nothing synthesized, the button goes down with
its press time recorded, and the chord variables are untouched. -/
theorem step_press_quiet (s : MonState) (b : Button) (t now : ℤ)
    (hd1 : (s.trk .B1).down = false) (hd2 : (s.trk .B2).down = false)
    (hq1 : (s.trk .B1).decide_at = none) (hq2 : (s.trk .B2).decide_at = none)
    (hpend : s.chord_pending = false) :
    (stepFull s ⟨some ⟨b, true, t⟩, decide (b = .B1), decide (b = .B2), now⟩).2.1 = [] ∧
    (stepFull s ⟨some ⟨b, true, t⟩, decide (b = .B1), decide (b = .B2), now⟩).2.2 = [] ∧
    (((stepFull s ⟨some ⟨b, true, t⟩, decide (b = .B1), decide (b = .B2), now⟩).1.trk b).down
        = true ∧
     ((stepFull s ⟨some ⟨b, true, t⟩, decide (b = .B1), decide (b = .B2), now⟩).1.trk b).press_time
        = some t ∧
     ((stepFull s ⟨some ⟨b, true, t⟩, decide (b = .B1), decide (b = .B2), now⟩).1.trk b).decide_at
        = none) ∧
    (((stepFull s ⟨some ⟨b, true, t⟩, decide (b = .B1), decide (b = .B2), now⟩).1.trk b.other).down
        = false ∧
     ((stepFull s ⟨some ⟨b, true, t⟩, decide (b = .B1), decide (b = .B2), now⟩).1.trk b.other).press_time
        = (s.trk b.other).press_time ∧
     ((stepFull s ⟨some ⟨b, true, t⟩, decide (b = .B1), decide (b = .B2), now⟩).1.trk b.other).decide_at
        = none) ∧
    (stepFull s ⟨some ⟨b, true, t⟩, decide (b = .B1), decide (b = .B2), now⟩).1.chord_armed
        = s.chord_armed ∧
    (stepFull s ⟨some ⟨b, true, t⟩, decide (b = .B1), decide (b = .B2), now⟩).1.chord_pending
        = false ∧
    (stepFull s ⟨some ⟨b, true, t⟩, decide (b = .B1), decide (b = .B2), now⟩).1.last_chord_time
        = s.last_chord_time := by
  cases b <;>
  · obtain ⟨⟨pt1, tc1, da1, dn1, su1, lh1, lr1, rs1, ls1⟩,
            ⟨pt2, tc2, da2, dn2, su2, lh2, lr2, rs2, ls2⟩, ca, cp, cdt, lct⟩ := s
    simp only [MonState.trk] at hd1 hd2 hq1 hq2 hpend
    subst hd1 hd2 hq1 hq2 hpend
    simp [stepFull, classifyStep, processEdge, processPress, rearmAndResolve,
      finalizeDecisions, finalizeOne, chordTimeoutCheck, resyncTick, synthForButton]

/-- One tick pressing button `b` while the other button is already down
with press time `tpo` within the chord grace window and chord detection
armed: nothing is posted, nothing synthesized, and the chord becomes
pending with detection time `now` and detection disarmed. -/
theorem step_press_chord (s : MonState) (b : Button) (t tpo now : ℤ)
    (hdo : (s.trk b.other).down = true)
    (hpo : (s.trk b.other).press_time = some tpo)
    (hds : (s.trk b).down = false)
    (hq1 : (s.trk .B1).decide_at = none) (hq2 : (s.trk .B2).decide_at = none)
    (harm : s.chord_armed = true) (hpend : s.chord_pending = false)
    (hgrace : |t - tpo| ≤ CHORD_GRACE_MS) :
    (stepFull s ⟨some ⟨b, true, t⟩, true, true, now⟩).2.1 = [] ∧
    (stepFull s ⟨some ⟨b, true, t⟩, true, true, now⟩).2.2 = [] ∧
    (((stepFull s ⟨some ⟨b, true, t⟩, true, true, now⟩).1.trk b).down = true ∧
     ((stepFull s ⟨some ⟨b, true, t⟩, true, true, now⟩).1.trk b).press_time = some t ∧
     ((stepFull s ⟨some ⟨b, true, t⟩, true, true, now⟩).1.trk b).decide_at = none) ∧
    (((stepFull s ⟨some ⟨b, true, t⟩, true, true, now⟩).1.trk b.other).down = true ∧
     ((stepFull s ⟨some ⟨b, true, t⟩, true, true, now⟩).1.trk b.other).press_time = some tpo ∧
     ((stepFull s ⟨some ⟨b, true, t⟩, true, true, now⟩).1.trk b.other).decide_at = none) ∧
    (stepFull s ⟨some ⟨b, true, t⟩, true, true, now⟩).1.chord_pending = true ∧
    (stepFull s ⟨some ⟨b, true, t⟩, true, true, now⟩).1.chord_detect_time = some now ∧
    (stepFull s ⟨some ⟨b, true, t⟩, true, true, now⟩).1.last_chord_time = s.last_chord_time := by
  have hnt : ¬ (CHORD_TIMEOUT < (0:ℤ)) := by decide
  cases b <;>
  · obtain ⟨⟨pt1, tc1, da1, dn1, su1, lh1, lr1, rs1, ls1⟩,
            ⟨pt2, tc2, da2, dn2, su2, lh2, lr2, rs2, ls2⟩, ca, cp, cdt, lct⟩ := s
    simp only [MonState.trk, other_B1, other_B2] at hdo hpo hds hq1 hq2 harm hpend
    subst hdo hds hq1 hq2 harm hpend
    simp [stepFull, classifyStep, processEdge, processPress, rearmAndResolve,
      finalizeDecisions, finalizeOne, chordTimeoutCheck, resyncTick, synthForButton,
      hpo, hgrace, hnt]

/-- One tick releasing button `c` while the chord is pending and the other
button is still down: no Tap, Double or Chord is posted (a Hold may be),
nothing is synthesized, the released button's state is cleared, and the
pending chord survives (the release happened inside the chord timeout). -/
theorem step_release_pending_first (s : MonState) (c : Button) (tp t now n2 : ℤ)
    (hds : (s.trk c).down = true)
    (hps : (s.trk c).press_time = some tp)
    (hdo : (s.trk c.other).down = true)
    (hq1 : (s.trk .B1).decide_at = none) (hq2 : (s.trk .B2).decide_at = none)
    (hpend : s.chord_pending = true)
    (hcdt : s.chord_detect_time = some n2)
    (htp : tp ≤ t)
    (hto : ¬ (CHORD_TIMEOUT < now - n2)) :
    (stepFull s ⟨some ⟨c, false, t⟩, !decide (c = .B1), !decide (c = .B2), now⟩).2.1.count
        Event.chord = 0 ∧
    (stepFull s ⟨some ⟨c, false, t⟩, !decide (c = .B1), !decide (c = .B2), now⟩).2.1.filter
        tapOrDouble = [] ∧
    (stepFull s ⟨some ⟨c, false, t⟩, !decide (c = .B1), !decide (c = .B2), now⟩).2.2 = [] ∧
    (((stepFull s ⟨some ⟨c, false, t⟩, !decide (c = .B1), !decide (c = .B2), now⟩).1.trk c).down
        = false ∧
     ((stepFull s ⟨some ⟨c, false, t⟩, !decide (c = .B1), !decide (c = .B2), now⟩).1.trk c).press_time
        = none ∧
     ((stepFull s ⟨some ⟨c, false, t⟩, !decide (c = .B1), !decide (c = .B2), now⟩).1.trk c).decide_at
        = none) ∧
    (((stepFull s ⟨some ⟨c, false, t⟩, !decide (c = .B1), !decide (c = .B2), now⟩).1.trk c.other).down
        = true ∧
     ((stepFull s ⟨some ⟨c, false, t⟩, !decide (c = .B1), !decide (c = .B2), now⟩).1.trk c.other).press_time
        = (s.trk c.other).press_time ∧
     ((stepFull s ⟨some ⟨c, false, t⟩, !decide (c = .B1), !decide (c = .B2), now⟩).1.trk c.other).decide_at
        = none) ∧
    (stepFull s ⟨some ⟨c, false, t⟩, !decide (c = .B1), !decide (c = .B2), now⟩).1.chord_pending
        = true := by
  have hnotlt : ¬ (t < tp) := by omega
  cases c <;>
  · obtain ⟨⟨pt1, tc1, da1, dn1, su1, lh1, lr1, rs1, ls1⟩,
            ⟨pt2, tc2, da2, dn2, su2, lh2, lr2, rs2, ls2⟩, ca, cp, cdt, lct⟩ := s
    simp only [MonState.trk, other_B1, other_B2] at hds hps hdo hq1 hq2 hpend hcdt
    subst hds hdo hq1 hq2 hpend hcdt
    rcases lt_or_le (t - tp) MIN_PULSE_MS with hpul | hpul
    · simp [stepFull, classifyStep, processEdge, processRelease, rearmAndResolve,
        classifyRelease, finalizeDecisions, finalizeOne, chordTimeoutCheck,
        resyncTick, synthForButton, decideB, tapOrDouble, hps, hnotlt, hto, hpul]
    · have hpul' : ¬ (t - tp < MIN_PULSE_MS) := not_lt.mpr hpul
      rcases le_or_lt (HOLD_MS .B1) (t - tp) with hh1 | hh1 <;>
        rcases le_or_lt (HOLD_MS .B2) (t - tp) with hh2 | hh2 <;>
        rcases lt_or_le (now - lct) CHORD_TAP_SUPPRESS with hr | hr <;>
        simp [stepFull, classifyStep, processEdge, processRelease, rearmAndResolve,
          classifyRelease, finalizeDecisions, finalizeOne, chordTimeoutCheck,
          resyncTick, synthForButton, decideB, tapOrDouble,
          hps, hnotlt, hto, hpul', hh1, hh2, hr, not_lt_of_ge, not_le_of_gt]

/-- One tick releasing button `b` while the chord is pending and the other
button is already up: exactly one Chord and no Tap or Double is posted,
nothing is synthesized, and both buttons' tap tallies and decision
deadlines are zeroed. -/
theorem step_release_resolve (s : MonState) (b : Button) (tp t now : ℤ)
    (hds : (s.trk b).down = true)
    (hps : (s.trk b).press_time = some tp)
    (hdo : (s.trk b.other).down = false)
    (hq1 : (s.trk .B1).decide_at = none) (hq2 : (s.trk .B2).decide_at = none)
    (hpend : s.chord_pending = true)
    (htp : tp ≤ t) :
    (stepFull s ⟨some ⟨b, false, t⟩, false, false, now⟩).2.1.count Event.chord = 1 ∧
    (stepFull s ⟨some ⟨b, false, t⟩, false, false, now⟩).2.1.filter tapOrDouble = [] ∧
    (stepFull s ⟨some ⟨b, false, t⟩, false, false, now⟩).2.2 = [] ∧
    ((stepFull s ⟨some ⟨b, false, t⟩, false, false, now⟩).1.trk .B1).tap_count = 0 ∧
    ((stepFull s ⟨some ⟨b, false, t⟩, false, false, now⟩).1.trk .B2).tap_count = 0 ∧
    ((stepFull s ⟨some ⟨b, false, t⟩, false, false, now⟩).1.trk .B1).decide_at = none ∧
    ((stepFull s ⟨some ⟨b, false, t⟩, false, false, now⟩).1.trk .B2).decide_at = none := by
  have hnotlt : ¬ (t < tp) := by omega
  have hsup : now - now < CHORD_TAP_SUPPRESS := by simp only [CHORD_TAP_SUPPRESS]; omega
  have hsupz : (0:ℤ) < CHORD_TAP_SUPPRESS := by decide
  cases b <;>
  · obtain ⟨⟨pt1, tc1, da1, dn1, su1, lh1, lr1, rs1, ls1⟩,
            ⟨pt2, tc2, da2, dn2, su2, lh2, lr2, rs2, ls2⟩, ca, cp, cdt, lct⟩ := s
    simp only [MonState.trk, other_B1, other_B2] at hds hps hdo hq1 hq2 hpend
    subst hds hdo hq1 hq2 hpend
    rcases lt_or_le (t - tp) MIN_PULSE_MS with hpul | hpul
    · simp [stepFull, classifyStep, processEdge, processRelease, rearmAndResolve,
        classifyRelease, finalizeDecisions, finalizeOne, chordTimeoutCheck,
        resyncTick, synthForButton, decideB, tapOrDouble,
        hps, hnotlt, hsup, hsupz, hpul]
    · have hpul' : ¬ (t - tp < MIN_PULSE_MS) := not_lt.mpr hpul
      rcases le_or_lt (HOLD_MS .B1) (t - tp) with hh1 | hh1 <;>
        rcases le_or_lt (HOLD_MS .B2) (t - tp) with hh2 | hh2 <;>
        simp [stepFull, classifyStep, processEdge, processRelease, rearmAndResolve,
          classifyRelease, finalizeDecisions, finalizeOne, chordTimeoutCheck,
          resyncTick, synthForButton, decideB, tapOrDouble,
          hps, hnotlt, hsup, hsupz, hpul', hh1, hh2, not_lt_of_ge, not_le_of_gt]

theorem button_cases {P : Button → Prop} (b : Button) (hb : P b) (ho : P b.other) :
    ∀ b', P b' := by
  intro b'
  cases b <;> cases b' <;> simp_all [Button.other]

/-- Claim C2 (confirmed): starting from any monitor state in which both
buttons are released with no pending decision deadlines, chord detection
armed and no chord pending, a press of button `a` at edge time `t1`, a
press of the other button at `t2` with the two press times within the
180 ms grace window, and the two releases in either order (`c` first, then
its partner) within the 1 s chord timeout of the detection, queue exactly
one Chord and zero Taps and zero Doubles, and leave both buttons' tap
tallies zeroed and decision deadlines cleared. The raw levels agree with
the believed state at every tick and no edge is synthesized. -/
theorem chord_yields_single_chord (s : MonState) (a c : Button)
    (t1 t2 t3 t4 n1 n2 n3 n4 : ℤ)
    (hd1 : (s.trk .B1).down = false) (hd2 : (s.trk .B2).down = false)
    (hq1 : (s.trk .B1).decide_at = none) (hq2 : (s.trk .B2).decide_at = none)
    (harm : s.chord_armed = true) (hpend : s.chord_pending = false)
    (hgrace : |t2 - t1| ≤ CHORD_GRACE_MS)
    (ht13 : t1 ≤ t3) (ht23 : t2 ≤ t3) (ht34 : t3 ≤ t4)
    (hto3 : n3 - n2 ≤ CHORD_TIMEOUT) (hto4 : n4 - n2 ≤ CHORD_TIMEOUT) :
    (runFull s [⟨some ⟨a, true, t1⟩, decide (a = .B1), decide (a = .B2), n1⟩,
                ⟨some ⟨a.other, true, t2⟩, true, true, n2⟩,
                ⟨some ⟨c, false, t3⟩, !decide (c = .B1), !decide (c = .B2), n3⟩,
                ⟨some ⟨c.other, false, t4⟩, false, false, n4⟩]).2.1.count Event.chord = 1 ∧
    (runFull s [⟨some ⟨a, true, t1⟩, decide (a = .B1), decide (a = .B2), n1⟩,
                ⟨some ⟨a.other, true, t2⟩, true, true, n2⟩,
                ⟨some ⟨c, false, t3⟩, !decide (c = .B1), !decide (c = .B2), n3⟩,
                ⟨some ⟨c.other, false, t4⟩, false, false, n4⟩]).2.1.filter tapOrDouble = [] ∧
    ((runFull s [⟨some ⟨a, true, t1⟩, decide (a = .B1), decide (a = .B2), n1⟩,
                 ⟨some ⟨a.other, true, t2⟩, true, true, n2⟩,
                 ⟨some ⟨c, false, t3⟩, !decide (c = .B1), !decide (c = .B2), n3⟩,
                 ⟨some ⟨c.other, false, t4⟩, false, false, n4⟩]).1.trk .B1).tap_count = 0 ∧
    ((runFull s [⟨some ⟨a, true, t1⟩, decide (a = .B1), decide (a = .B2), n1⟩,
                 ⟨some ⟨a.other, true, t2⟩, true, true, n2⟩,
                 ⟨some ⟨c, false, t3⟩, !decide (c = .B1), !decide (c = .B2), n3⟩,
                 ⟨some ⟨c.other, false, t4⟩, false, false, n4⟩]).1.trk .B2).tap_count = 0 ∧
    ((runFull s [⟨some ⟨a, true, t1⟩, decide (a = .B1), decide (a = .B2), n1⟩,
                 ⟨some ⟨a.other, true, t2⟩, true, true, n2⟩,
                 ⟨some ⟨c, false, t3⟩, !decide (c = .B1), !decide (c = .B2), n3⟩,
                 ⟨some ⟨c.other, false, t4⟩, false, false, n4⟩]).1.trk .B1).decide_at = none ∧
    ((runFull s [⟨some ⟨a, true, t1⟩, decide (a = .B1), decide (a = .B2), n1⟩,
                 ⟨some ⟨a.other, true, t2⟩, true, true, n2⟩,
                 ⟨some ⟨c, false, t3⟩, !decide (c = .B1), !decide (c = .B2), n3⟩,
                 ⟨some ⟨c.other, false, t4⟩, false, false, n4⟩]).1.trk .B2).decide_at = none ∧
    (runFull s [⟨some ⟨a, true, t1⟩, decide (a = .B1), decide (a = .B2), n1⟩,
                ⟨some ⟨a.other, true, t2⟩, true, true, n2⟩,
                ⟨some ⟨c, false, t3⟩, !decide (c = .B1), !decide (c = .B2), n3⟩,
                ⟨some ⟨c.other, false, t4⟩, false, false, n4⟩]).2.2 = [] := by
  obtain ⟨e1, y1, ⟨d1b, p1b, q1b⟩, ⟨d1o, p1o, q1o⟩, arm1, pend1, lct1⟩ :=
    step_press_quiet s a t1 n1 hd1 hd2 hq1 hq2 hpend
  set s1 := (stepFull s ⟨some ⟨a, true, t1⟩, decide (a = .B1), decide (a = .B2), n1⟩).1
    with hs1
  have hdo2 : (s1.trk a.other.other).down = true := by rw [Button.other_other]; exact d1b
  have hpo2 : (s1.trk a.other.other).press_time = some t1 := by
    rw [Button.other_other]; exact p1b
  have hqall1 : ∀ b', (s1.trk b').decide_at = none :=
    button_cases a q1b q1o
  obtain ⟨e2, y2, ⟨d2b, p2b, q2b⟩, ⟨d2o, p2o, q2o⟩, pend2, cdt2, lct2⟩ :=
    step_press_chord s1 a.other t2 t1 n2 hdo2 hpo2 d1o (hqall1 .B1) (hqall1 .B2)
      (arm1.trans harm) pend1 hgrace
  set s2 := (stepFull s1 ⟨some ⟨a.other, true, t2⟩, true, true, n2⟩).1 with hs2
  have d2o' : (s2.trk a).down = true := by rw [← Button.other_other a]; exact d2o
  have p2o' : (s2.trk a).press_time = some t1 := by
    rw [← Button.other_other a]; exact p2o
  have hdall2 : ∀ b', (s2.trk b').down = true :=
    button_cases a d2o' d2b
  have hqall2 : ∀ b', (s2.trk b').decide_at = none :=
    button_cases a.other q2b q2o
  have hpress2 : ∀ b', ∃ tp, (s2.trk b').press_time = some tp ∧ tp ≤ t3 ∧ tp ≤ t4 := by
    refine button_cases a ⟨t1, p2o', ht13, le_trans ht13 ht34⟩ ⟨t2, p2b, ht23, le_trans ht23 ht34⟩
  obtain ⟨tp3, hps3, htp3, _⟩ := hpress2 c
  obtain ⟨cnt3, fil3, y3, ⟨d3c, p3c, q3c⟩, ⟨d3o, p3o, q3o⟩, pend3⟩ :=
    step_release_pending_first s2 c tp3 t3 n3 n2 (hdall2 c) hps3 (hdall2 c.other)
      (hqall2 .B1) (hqall2 .B2) pend2 cdt2 htp3 (not_lt.mpr hto3)
  set s3 := (stepFull s2 ⟨some ⟨c, false, t3⟩, !decide (c = .B1), !decide (c = .B2), n3⟩).1
    with hs3
  obtain ⟨tp4, hps4', _, htp4⟩ := hpress2 c.other
  have hps4 : (s3.trk c.other).press_time = some tp4 := by rw [p3o]; exact hps4'
  have hdo4 : (s3.trk c.other.other).down = false := by rw [Button.other_other]; exact d3c
  have hqall3 : ∀ b', (s3.trk b').decide_at = none :=
    button_cases c q3c q3o
  obtain ⟨cnt4, fil4, y4, tcB1, tcB2, qB1, qB2⟩ :=
    step_release_resolve s3 c.other tp4 t4 n4 d3o hps4 hdo4
      (hqall3 .B1) (hqall3 .B2) pend3 htp4
  simp only [trk_B1, trk_B2] at tcB1 tcB2 qB1 qB2
  simp only [runFull_cons, runFull_nil, ← hs1, ← hs2, ← hs3]
  simp [e1, e2, y1, y2, y3, y4, cnt3, cnt4, fil3, fil4, tcB1, tcB2, qB1, qB2,
    List.count_append, List.filter_append]

/-- Witness for `chord_yields_single_chord`: a concrete chord — press B1
at 1000 ms, press B2 at 1100 ms (within the 180 ms grace), release B1 at
1400 ms and B2 at 1500 ms (within the 1 s timeout), starting from the
pristine monitor state. -/
theorem chord_yields_single_chord_witness :
    (runFull initState
      [⟨some ⟨.B1, true, 1000⟩, decide (Button.B1 = .B1), decide (Button.B1 = .B2), 1000⟩,
       ⟨some ⟨Button.other .B1, true, 1100⟩, true, true, 1100⟩,
       ⟨some ⟨.B1, false, 1400⟩, !decide (Button.B1 = .B1), !decide (Button.B1 = .B2), 1400⟩,
       ⟨some ⟨Button.other .B1, false, 1500⟩, false, false, 1500⟩]).2.1.count Event.chord = 1 :=
  (chord_yields_single_chord initState .B1 .B1 1000 1100 1400 1500 1000 1100 1400 1500
    (by decide) (by decide) (by decide) (by decide) (by decide) (by decide) (by decide)
    (by decide) (by decide) (by decide) (by decide) (by decide)).1

/-- When the raw level equals the believed state, the synthesis loop does
nothing for that button (the resync guards require a mismatch). -/
theorem synthForButton_inert (s : MonState) (b : Button) (raw : Bool) (now : ℤ)
    (h : (s.trk b).down = raw) :
    synthForButton s b raw now = (s, [], []) := by
  cases raw <;> simp [synthForButton, h]

/-- When both raw levels equal the believed states, the whole resync block
only refreshes the raw-stability trackers: no edge is synthesized and no
event posted. -/
theorem resyncTick_inert (s : MonState) (r1 r2 : Bool) (now : ℤ)
    (hA : (s.trk .B1).down = r1) (hB : (s.trk .B2).down = r2) :
    resyncTick s r1 r2 now =
      ((s.setTrk .B1 (rawUpdate (s.trk .B1) r1 now)).setTrk .B2
         (rawUpdate ((s.setTrk .B1 (rawUpdate (s.trk .B1) r1 now)).trk .B2) r2 now),
       [], []) := by
  have hA' : ((((s.setTrk .B1 (rawUpdate (s.trk .B1) r1 now)).setTrk .B2
      (rawUpdate ((s.setTrk .B1 (rawUpdate (s.trk .B1) r1 now)).trk .B2) r2 now))).trk .B1).down
      = r1 := by simp only [trk_B1] at hA; simp [hA]
  have hB' : ((((s.setTrk .B1 (rawUpdate (s.trk .B1) r1 now)).setTrk .B2
      (rawUpdate ((s.setTrk .B1 (rawUpdate (s.trk .B1) r1 now)).trk .B2) r2 now))).trk .B2).down
      = r2 := by simp only [trk_B2] at hB; simp [hB]
  simp only [resyncTick]
  rw [synthForButton_inert _ _ _ _ hA', synthForButton_inert _ _ _ _ hB']
  simp

/-- A raw-consistent tick behaves exactly like its classification part:
same posted events, no synthesized edges, and the same tap tallies and
decision deadlines. -/
theorem stepFull_consistent (s : MonState) (tk : Tick)
    (hr : rawTickOk s tk = true) :
    (stepFull s tk).2.1 = (classifyStep s tk).2 ∧
    (stepFull s tk).2.2 = [] ∧
    (stepFull s tk).1.b1.tap_count = (classifyStep s tk).1.b1.tap_count ∧
    (stepFull s tk).1.b2.tap_count = (classifyStep s tk).1.b2.tap_count ∧
    (stepFull s tk).1.b1.decide_at = (classifyStep s tk).1.b1.decide_at ∧
    (stepFull s tk).1.b2.decide_at = (classifyStep s tk).1.b2.decide_at := by
  simp only [rawTickOk, Bool.and_eq_true, beq_iff_eq, trk_B1, trk_B2] at hr
  obtain ⟨hr1, hr2⟩ := hr
  simp only [stepFull]
  rw [resyncTick_inert _ _ _ _ (by simp [hr1]) (by simp [hr2])]
  simp


/-- The chord-timeout check never touches button 1's track. -/
theorem chordTimeoutCheck_b1 (s : MonState) (now : ℤ) :
    (chordTimeoutCheck s now).b1 = s.b1 := by
  rcases s with ⟨b1, b2, ca, cp, cdt, lct⟩
  cases cp <;> rcases cdt with _ | d <;> simp [chordTimeoutCheck] <;> split_ifs <;> rfl

/-- The chord-timeout check never touches button 2's track. -/
theorem chordTimeoutCheck_b2 (s : MonState) (now : ℤ) :
    (chordTimeoutCheck s now).b2 = s.b2 := by
  rcases s with ⟨b1, b2, ca, cp, cdt, lct⟩
  cases cp <;> rcases cdt with _ | d <;> simp [chordTimeoutCheck] <;> split_ifs <;> rfl

/-- Core of claim C1: one classification step from a state with zero tap
tallies and no pending decision deadlines, whose edge (if a matched
release) closes a pulse shorter than the 20 ms debounce floor, keeps the
tallies at zero and the deadlines clear, and can only post a Chord. -/
theorem classifyStep_short (s : MonState) (tk : Tick)
    (h1 : (s.trk .B1).tap_count = 0) (h2 : (s.trk .B2).tap_count = 0)
    (h3 : (s.trk .B1).decide_at = none) (h4 : (s.trk .B2).decide_at = none)
    (hshort : shortTick s tk = true) :
    ((classifyStep s tk).1.trk .B1).tap_count = 0 ∧
    ((classifyStep s tk).1.trk .B2).tap_count = 0 ∧
    ((classifyStep s tk).1.trk .B1).decide_at = none ∧
    ((classifyStep s tk).1.trk .B2).decide_at = none ∧
    ∀ e ∈ (classifyStep s tk).2, e = Event.chord := by
  have hz : (0:ℤ) < MIN_PULSE_MS := by decide
  obtain ⟨edge, r1, r2, now⟩ := tk
  obtain ⟨⟨pt1, tc1, da1, dn1, su1, lh1, lr1, rs1, ls1⟩,
          ⟨pt2, tc2, da2, dn2, su2, lh2, lr2, rs2, ls2⟩, ca, cp, cdt, lct⟩ := s
  simp only [MonState.trk] at h1 h2 h3 h4
  subst h1 h2 h3 h4
  cases edge with
  | none =>
      simp [classifyStep, finalizeDecisions, finalizeOne, MonState.trk,
        chordTimeoutCheck_b1, chordTimeoutCheck_b2]
  | some e =>
      obtain ⟨btn, ip, t⟩ := e
      cases ip
      · -- release edge
        cases btn
        · cases pt1 with
          | none =>
              simp [classifyStep, processEdge, processRelease, finalizeDecisions,
                finalizeOne, MonState.trk, chordTimeoutCheck_b1, chordTimeoutCheck_b2]
          | some tp =>
              simp [shortTick, MonState.trk] at hshort
              rcases lt_or_le t tp with hcl | hcl <;>
                [(have hcl' : t < tp := hcl);
                 (have hcl' : ¬ (t < tp) := not_lt.mpr hcl)] <;>
              cases cp <;> cases dn2 <;>
                simp [classifyStep, processEdge, processRelease, rearmAndResolve,
                  classifyRelease, finalizeDecisions, finalizeOne, decideB, MonState.trk,
                  chordTimeoutCheck_b1, chordTimeoutCheck_b2, hcl', hshort, hz]
        · cases pt2 with
          | none =>
              simp [classifyStep, processEdge, processRelease, finalizeDecisions,
                finalizeOne, MonState.trk, chordTimeoutCheck_b1, chordTimeoutCheck_b2]
          | some tp =>
              simp [shortTick, MonState.trk] at hshort
              rcases lt_or_le t tp with hcl | hcl <;>
                [(have hcl' : t < tp := hcl);
                 (have hcl' : ¬ (t < tp) := not_lt.mpr hcl)] <;>
              cases cp <;> cases dn1 <;>
                simp [classifyStep, processEdge, processRelease, rearmAndResolve,
                  classifyRelease, finalizeDecisions, finalizeOne, decideB, MonState.trk,
                  chordTimeoutCheck_b1, chordTimeoutCheck_b2, hcl', hshort, hz]
      · -- press edge
        cases btn
        · cases dn2
          · simp [classifyStep, processEdge, processPress, finalizeDecisions,
              finalizeOne, MonState.trk, chordTimeoutCheck_b1, chordTimeoutCheck_b2]
          · rcases pt2 with _ | tpo
            · simp [classifyStep, processEdge, processPress, finalizeDecisions,
                finalizeOne, MonState.trk, chordTimeoutCheck_b1, chordTimeoutCheck_b2]
            · cases ca
              · simp [classifyStep, processEdge, processPress, finalizeDecisions,
                  finalizeOne, MonState.trk, chordTimeoutCheck_b1, chordTimeoutCheck_b2]
              · by_cases hgr : |t - tpo| ≤ CHORD_GRACE_MS <;>
                  simp [classifyStep, processEdge, processPress, finalizeDecisions,
                    finalizeOne, MonState.trk, chordTimeoutCheck_b1, chordTimeoutCheck_b2,
                    hgr]
        · cases dn1
          · simp [classifyStep, processEdge, processPress, finalizeDecisions,
              finalizeOne, MonState.trk, chordTimeoutCheck_b1, chordTimeoutCheck_b2]
          · rcases pt1 with _ | tpo
            · simp [classifyStep, processEdge, processPress, finalizeDecisions,
                finalizeOne, MonState.trk, chordTimeoutCheck_b1, chordTimeoutCheck_b2]
            · cases ca
              · simp [classifyStep, processEdge, processPress, finalizeDecisions,
                  finalizeOne, MonState.trk, chordTimeoutCheck_b1, chordTimeoutCheck_b2]
              · by_cases hgr : |t - tpo| ≤ CHORD_GRACE_MS <;>
                  simp [classifyStep, processEdge, processPress, finalizeDecisions,
                    finalizeOne, MonState.trk, chordTimeoutCheck_b1, chordTimeoutCheck_b2,
                    hgr]

/-- One full raw-consistent tick preserves the zero-tally invariant and
posts at most Chord events, synthesizing nothing. -/
theorem step_short_inv (s : MonState) (tk : Tick)
    (h1 : (s.trk .B1).tap_count = 0) (h2 : (s.trk .B2).tap_count = 0)
    (h3 : (s.trk .B1).decide_at = none) (h4 : (s.trk .B2).decide_at = none)
    (hraw : rawTickOk s tk = true) (hshort : shortTick s tk = true) :
    ((stepFull s tk).1.trk .B1).tap_count = 0 ∧
    ((stepFull s tk).1.trk .B2).tap_count = 0 ∧
    ((stepFull s tk).1.trk .B1).decide_at = none ∧
    ((stepFull s tk).1.trk .B2).decide_at = none ∧
    (∀ e ∈ (stepFull s tk).2.1, e = Event.chord) ∧
    (stepFull s tk).2.2 = [] := by
  obtain ⟨hev, hsyn, hb1c, hb2c, hb1d, hb2d⟩ := stepFull_consistent s tk hraw
  obtain ⟨c1, c2, c3, c4, cev⟩ := classifyStep_short s tk h1 h2 h3 h4 hshort
  simp only [trk_B1, trk_B2] at c1 c2 c3 c4 ⊢
  refine ⟨by rw [hb1c]; exact c1, by rw [hb2c]; exact c2,
          by rw [hb1d]; exact c3, by rw [hb2d]; exact c4, ?_, hsyn⟩
  rw [hev]
  exact cev

/-- Claim C1 (amended): over any input run in which every matched pulse is
shorter than the 20 ms debounce floor and the raw levels always agree with
the believed state, no Tap, Double, FiveTap or Hold is ever queued (every
queued event is a Chord), both tap tallies remain zero with no pending
decision deadline, and no edge is synthesized. The chord path is the one
exception the original claim missed: chord resolution runs before the
pulse-length check, so a pending chord still posts `B1B2_CHORD` even when
all pulses are sub-20 ms. -/
theorem debounce_short_pulses (s : MonState) (ticks : List Tick)
    (h1 : (s.trk .B1).tap_count = 0) (h2 : (s.trk .B2).tap_count = 0)
    (h3 : (s.trk .B1).decide_at = none) (h4 : (s.trk .B2).decide_at = none)
    (hraw : rawOk s ticks = true) (hshort : shortPulsesOk s ticks = true) :
    (∀ e ∈ (runFull s ticks).2.1, e = Event.chord) ∧
    ((runFull s ticks).1.trk .B1).tap_count = 0 ∧
    ((runFull s ticks).1.trk .B2).tap_count = 0 ∧
    ((runFull s ticks).1.trk .B1).decide_at = none ∧
    ((runFull s ticks).1.trk .B2).decide_at = none ∧
    (runFull s ticks).2.2 = [] := by
  induction ticks generalizing s with
  | nil =>
      rw [runFull_nil]
      exact ⟨by simp, h1, h2, h3, h4, rfl⟩
  | cons tk rest ih =>
      simp only [rawOk, Bool.and_eq_true] at hraw
      simp only [shortPulsesOk, Bool.and_eq_true] at hshort
      obtain ⟨hrt, hraw2⟩ := hraw
      obtain ⟨hst, hshort2⟩ := hshort
      obtain ⟨k1, k2, k3, k4, kev, ksyn⟩ := step_short_inv s tk h1 h2 h3 h4 hrt hst
      obtain ⟨iev, i1, i2, i3, i4, isyn⟩ := ih (stepFull s tk).1 k1 k2 k3 k4 hraw2 hshort2
      rw [runFull_cons]
      refine ⟨?_, i1, i2, i3, i4, ?_⟩
      · intro e he
        simp only [List.mem_append] at he
        rcases he with he | he
        · exact kev e he
        · exact iev e he
      · simp [ksyn, isyn]


/-- Claim C1, counterexample to the claim as stated. Press B1 at 0 ms,
press B2 at 10 ms (within the chord grace window), release B1 at 15 ms
(pulse 15 ms) and B2 at 18 ms (pulse 8 ms): every pulse is shorter than
the 20 ms debounce floor and the raw line agrees with the believed state
throughout, yet the run queues a Chord — chord resolution precedes the
debounce check, so "no gesture of any kind" is false. -/
theorem debounce_claim_counterexample :
    shortPulsesOk initState
      [ ⟨some ⟨.B1, true, 0⟩, true, false, 0⟩
      , ⟨some ⟨.B2, true, 10⟩, true, true, 10⟩
      , ⟨some ⟨.B1, false, 15⟩, false, true, 15⟩
      , ⟨some ⟨.B2, false, 18⟩, false, false, 18⟩ ] = true ∧
    rawOk initState
      [ ⟨some ⟨.B1, true, 0⟩, true, false, 0⟩
      , ⟨some ⟨.B2, true, 10⟩, true, true, 10⟩
      , ⟨some ⟨.B1, false, 15⟩, false, true, 15⟩
      , ⟨some ⟨.B2, false, 18⟩, false, false, 18⟩ ] = true ∧
    (runFull initState
      [ ⟨some ⟨.B1, true, 0⟩, true, false, 0⟩
      , ⟨some ⟨.B2, true, 10⟩, true, true, 10⟩
      , ⟨some ⟨.B1, false, 15⟩, false, true, 15⟩
      , ⟨some ⟨.B2, false, 18⟩, false, false, 18⟩ ]).2.1 = [Event.chord] := by
  refine ⟨by decide, by decide, by decide⟩

/-- Witness for `debounce_short_pulses`: the chord run above satisfies both
run conditions, and the theorem applies to it, giving a zero final tally. -/
theorem debounce_short_pulses_witness :
    ((runFull initState
      [ ⟨some ⟨.B1, true, 0⟩, true, false, 0⟩
      , ⟨some ⟨.B2, true, 10⟩, true, true, 10⟩
      , ⟨some ⟨.B1, false, 15⟩, false, true, 15⟩
      , ⟨some ⟨.B2, false, 18⟩, false, false, 18⟩ ]).1.trk .B1).tap_count = 0 :=
  (debounce_short_pulses initState
    [ ⟨some ⟨.B1, true, 0⟩, true, false, 0⟩
    , ⟨some ⟨.B2, true, 10⟩, true, true, 10⟩
    , ⟨some ⟨.B1, false, 15⟩, false, true, 15⟩
    , ⟨some ⟨.B2, false, 18⟩, false, false, 18⟩ ]
    rfl rfl rfl rfl (by decide) (by decide)).2.1

/-- Claim C3, counterexample to the claim as stated. A single pulse of
900 ms (at or above button 1's 800 ms hold threshold) is NOT guaranteed to
queue zero Taps regardless of the prior tap tally: with a prior tally of
one tap (pulse at 10000-10030 ms), the pending decision deadline
(10030 + 700 = 10730 ms) elapses during the hold pulse
(press 10100 ms, release 11000 ms), so the monitor posts `B1_TAP` at the
10750 ms tick, before the `B1_HOLD` of the hold pulse: the run queues
`[Tap B1, Hold B1]`, not `[Hold B1]`. The raw levels agree with the
believed state at every tick, so no resync interferes, and the first three
ticks post nothing: both queued events come after the hold pulse's press. -/
theorem hold_claim_counterexample :
    (runFull initState
      [ ⟨some ⟨.B1, true, 10000⟩, true, false, 10000⟩
      , ⟨some ⟨.B1, false, 10030⟩, false, false, 10030⟩
      , ⟨some ⟨.B1, true, 10100⟩, true, false, 10100⟩
      , ⟨none, true, false, 10750⟩
      , ⟨some ⟨.B1, false, 11000⟩, false, false, 11000⟩ ]).2.1
      = [Event.tap .B1, Event.hold .B1] ∧
    (runFull initState
      [ ⟨some ⟨.B1, true, 10000⟩, true, false, 10000⟩
      , ⟨some ⟨.B1, false, 10030⟩, false, false, 10030⟩
      , ⟨some ⟨.B1, true, 10100⟩, true, false, 10100⟩ ]).2.1 = [] ∧
    rawOk initState
      [ ⟨some ⟨.B1, true, 10000⟩, true, false, 10000⟩
      , ⟨some ⟨.B1, false, 10030⟩, false, false, 10030⟩
      , ⟨some ⟨.B1, true, 10100⟩, true, false, 10100⟩
      , ⟨none, true, false, 10750⟩
      , ⟨some ⟨.B1, false, 11000⟩, false, false, 11000⟩ ] = true := by
  refine ⟨by decide, by decide, by decide⟩

set_option maxHeartbeats 2000000 in
/-- Claim C3 (amended): a single pulse on button `b` whose duration
reaches the per-button hold threshold (800 ms for B1, 3000 ms for B2)
queues exactly one Hold and nothing else — in particular zero Taps —
regardless of the button's prior tap tally, PROVIDED the button has no
pending decision deadline when the pulse starts (and no chord is pending,
the other button is up, and the release is not within the 750 ms
post-chord window). The tally and deadline end cleared, and the 1.5 s
post-hold tap-suppression window starts at the release. The raw levels
match the believed state throughout, and no edge is synthesized. -/
theorem hold_pulse_amended (s : MonState) (b : Button) (t1 t2 n1 n2 : ℤ)
    (hdownb : (s.trk b).down = false)
    (hptb : (s.trk b).press_time = none)
    (hdecb : (s.trk b).decide_at = none)
    (hdowno : (s.trk b.other).down = false)
    (hdeco : (s.trk b.other).decide_at = none)
    (hpend : s.chord_pending = false)
    (hlc : s.last_chord_time + CHORD_TAP_SUPPRESS ≤ n2)
    (hhold : HOLD_MS b ≤ t2 - t1) :
    (runFull s [⟨some ⟨b, true, t1⟩, decide (b = .B1), decide (b = .B2), n1⟩,
                ⟨some ⟨b, false, t2⟩, false, false, n2⟩]).2.1 = [Event.hold b] ∧
    ((runFull s [⟨some ⟨b, true, t1⟩, decide (b = .B1), decide (b = .B2), n1⟩,
                 ⟨some ⟨b, false, t2⟩, false, false, n2⟩]).1.trk b).tap_count = 0 ∧
    ((runFull s [⟨some ⟨b, true, t1⟩, decide (b = .B1), decide (b = .B2), n1⟩,
                 ⟨some ⟨b, false, t2⟩, false, false, n2⟩]).1.trk b).decide_at = none ∧
    ((runFull s [⟨some ⟨b, true, t1⟩, decide (b = .B1), decide (b = .B2), n1⟩,
                 ⟨some ⟨b, false, t2⟩, false, false, n2⟩]).1.trk b).tap_suppress_until
      = n2 + HOLD_COOLDOWN ∧
    ((runFull s [⟨some ⟨b, true, t1⟩, decide (b = .B1), decide (b = .B2), n1⟩,
                 ⟨some ⟨b, false, t2⟩, false, false, n2⟩]).1.trk b).last_hold = n2 ∧
    (runFull s [⟨some ⟨b, true, t1⟩, decide (b = .B1), decide (b = .B2), n1⟩,
                ⟨some ⟨b, false, t2⟩, false, false, n2⟩]).2.2 = [] := by
  cases b <;>
  · obtain ⟨⟨pt1, tc1, da1, dn1, su1, lh1, lr1, rs1, ls1⟩,
            ⟨pt2, tc2, da2, dn2, su2, lh2, lr2, rs2, ls2⟩, ca, cp, cdt, lct⟩ := s
    simp only [MonState.trk, other_B1, other_B2] at hdownb hptb hdecb hdowno hdeco hpend hlc
    subst hdownb hptb hdecb hdowno hdeco hpend
    have hnotlt : ¬ (t2 < t1) := by simp [HOLD_MS] at hhold; omega
    have hpulse : ¬ (t2 - t1 < MIN_PULSE_MS) := by
      simp only [HOLD_MS] at hhold; simp only [MIN_PULSE_MS]; omega
    have hnotrec : ¬ (n2 - lct < CHORD_TAP_SUPPRESS) := by
      simp only [CHORD_TAP_SUPPRESS] at hlc ⊢; omega
    simp only [runFull, stepFull, classifyStep, processEdge, processPress, processRelease,
      rearmAndResolve, classifyRelease, finalizeDecisions, finalizeOne, chordTimeoutCheck,
      resyncTick, synthForButton, decideB,
      trk_B1, trk_B2, setTrk_B1, setTrk_B2, other_B1, other_B2,
      rawUpdate_down, rawUpdate_press_time, rawUpdate_tap_count, rawUpdate_decide_at,
      rawUpdate_tap_suppress_until, rawUpdate_last_hold, rawUpdate_last_synth,
      hnotlt, hpulse, hhold, hnotrec]
    simp [hnotlt, hpulse, hhold, hnotrec]

/-- Witness for `hold_pulse_amended`: a concrete 900 ms pulse on button 1
starting from the pristine monitor state with a prior tally of 3 queued
taps on the tally counter but no pending deadline. -/
theorem hold_pulse_amended_witness :
    (runFull { initState with b1 := { initTrack with tap_count := 3 } }
      [⟨some ⟨.B1, true, 10000⟩, decide (Button.B1 = .B1), decide (Button.B1 = .B2), 10000⟩,
       ⟨some ⟨.B1, false, 10900⟩, false, false, 10900⟩]).2.1 = [Event.hold .B1] :=
  (hold_pulse_amended { initState with b1 := { initTrack with tap_count := 3 } }
    .B1 10000 10900 10000 10900 (by decide) (by decide) (by decide) (by decide)
    (by decide) (by decide) (by decide) (by decide)).1

theorem synthForButton_guard (s : MonState) (b : Button) (raw : Bool) (now : ℤ)
    (b' : Button) (k : Bool)
    (hmem : (b', k) ∈ (synthForButton s b raw now).2.2) :
    b' = b ∧ canSynth (s.trk b) now = true := by
  by_cases hA : (raw && !(s.trk b).down && canSynth (s.trk b) now) = true
  · simp only [synthForButton, if_pos hA] at hmem
    simp only [List.mem_singleton, Prod.mk.injEq] at hmem
    simp only [Bool.and_eq_true, Bool.not_eq_eq_eq_not, Bool.not_true] at hA
    exact ⟨hmem.1, hA.2⟩
  · by_cases hB : (!raw && (s.trk b).down && canSynth (s.trk b) now) = true
    · simp only [synthForButton, if_neg hA, if_pos hB] at hmem
      simp only [List.mem_singleton, Prod.mk.injEq] at hmem
      simp only [Bool.and_eq_true] at hB
      exact ⟨hmem.1, hB.2⟩
    · simp only [synthForButton, if_neg hA, if_neg hB] at hmem
      simp at hmem

theorem rearmAndResolve_rss_b1 (s : MonState) (now : ℤ) :
    ((rearmAndResolve s now).1).b1.raw_stable_since = s.b1.raw_stable_since := by
  simp only [rearmAndResolve]
  split_ifs <;> simp

theorem rearmAndResolve_ls_b1 (s : MonState) (now : ℤ) :
    ((rearmAndResolve s now).1).b1.last_synth = s.b1.last_synth := by
  simp only [rearmAndResolve]
  split_ifs <;> simp

theorem rearmAndResolve_rss_b2 (s : MonState) (now : ℤ) :
    ((rearmAndResolve s now).1).b2.raw_stable_since = s.b2.raw_stable_since := by
  simp only [rearmAndResolve]
  split_ifs <;> simp

theorem rearmAndResolve_ls_b2 (s : MonState) (now : ℤ) :
    ((rearmAndResolve s now).1).b2.last_synth = s.b2.last_synth := by
  simp only [rearmAndResolve]
  split_ifs <;> simp

theorem synClassifyRelease_rss_b1 (s : MonState) (b : Button) (p now : ℤ) :
    ((synClassifyRelease s b p now).1).b1.raw_stable_since = s.b1.raw_stable_since := by
  cases b <;>
  · simp only [synClassifyRelease, MonState.trk, trk_B1, trk_B2, setTrk_B1, setTrk_B2]
    split_ifs <;> simp

theorem synClassifyRelease_ls_b1 (s : MonState) (b : Button) (p now : ℤ) :
    ((synClassifyRelease s b p now).1).b1.last_synth = s.b1.last_synth := by
  cases b <;>
  · simp only [synClassifyRelease, MonState.trk, trk_B1, trk_B2, setTrk_B1, setTrk_B2]
    split_ifs <;> simp

theorem synClassifyRelease_rss_b2 (s : MonState) (b : Button) (p now : ℤ) :
    ((synClassifyRelease s b p now).1).b2.raw_stable_since = s.b2.raw_stable_since := by
  cases b <;>
  · simp only [synClassifyRelease, MonState.trk, trk_B1, trk_B2, setTrk_B1, setTrk_B2]
    split_ifs <;> simp

theorem synClassifyRelease_ls_b2 (s : MonState) (b : Button) (p now : ℤ) :
    ((synClassifyRelease s b p now).1).b2.last_synth = s.b2.last_synth := by
  cases b <;>
  · simp only [synClassifyRelease, MonState.trk, trk_B1, trk_B2, setTrk_B1, setTrk_B2]
    split_ifs <;> simp

theorem synthForButton_other_resync_fields (s : MonState) (b : Button) (raw : Bool)
    (now : ℤ) :
    ((synthForButton s b raw now).1.trk b.other).raw_stable_since
        = (s.trk b.other).raw_stable_since ∧
    ((synthForButton s b raw now).1.trk b.other).last_synth
        = (s.trk b.other).last_synth := by
  by_cases hA : (raw && !(s.trk b).down && canSynth (s.trk b) now) = true
  · simp only [Bool.and_eq_true, Bool.not_eq_eq_eq_not, Bool.not_true] at hA
    obtain ⟨⟨hr, hd⟩, hc⟩ := hA
    cases b <;>
    · simp only [trk_B1, trk_B2] at hd hc
      simp only [synthForButton, other_B1, other_B2, trk_B1, trk_B2, setTrk_B1,
        setTrk_B2, hr, hd, hc, Bool.not_false, Bool.and_self, Bool.and_true,
        Bool.true_and, if_true, ite_true]
      constructor <;>
      · split_ifs
        · split
          · split_ifs <;> simp
          · simp
        · simp
  · by_cases hB : (!raw && (s.trk b).down && canSynth (s.trk b) now) = true
    · simp only [Bool.and_eq_true, Bool.not_eq_eq_eq_not, Bool.not_true] at hB
      obtain ⟨⟨hr, hd⟩, hc⟩ := hB
      subst hr
      cases b <;>
      · simp only [trk_B1, trk_B2] at hd hc
        simp only [synthForButton, other_B1, other_B2, trk_B1, trk_B2, setTrk_B1,
          setTrk_B2, hd, hc, Bool.not_false, Bool.and_self, Bool.and_true,
          Bool.true_and, Bool.false_and, Bool.and_false, if_true, ite_true,
          if_false, ite_false]
        constructor <;>
          simp [rearmAndResolve_rss_b1, rearmAndResolve_rss_b2,
            rearmAndResolve_ls_b1, rearmAndResolve_ls_b2,
            synClassifyRelease_rss_b1, synClassifyRelease_rss_b2,
            synClassifyRelease_ls_b1, synClassifyRelease_ls_b2]
    · cases raw <;> cases hd : (s.trk b).down <;> cases hc : canSynth (s.trk b) now <;>
      first
      | (cases b <;>
         · simp only [trk_B1, trk_B2] at hd hc
           simp [synthForButton, hd, hc])
      | simp [hd, hc] at hA hB

theorem canSynth_congr (t1 t2 : Track) (now : ℤ)
    (h1 : t1.raw_stable_since = t2.raw_stable_since)
    (h2 : t1.last_synth = t2.last_synth) :
    canSynth t1 now = canSynth t2 now := by
  simp [canSynth, h1, h2]

theorem canSynth_rawUpdate (tr : Track) (raw : Bool) (now : ℤ)
    (h : canSynth (rawUpdate tr raw now) now = true) :
    raw = tr.last_raw ∧ RESYNC_SAMPLE_MS ≤ now - tr.raw_stable_since ∧
      RESYNC_COOLDOWN_MS ≤ now - tr.last_synth := by
  by_cases hr : raw = tr.last_raw
  · refine ⟨hr, ?_⟩
    rw [rawUpdate, if_neg (by simp [hr])] at h
    simpa [canSynth] using h
  · rw [rawUpdate, if_pos (by simp [hr])] at h
    simp [canSynth, RESYNC_SAMPLE_MS] at h

theorem resync_guard_necessary (s : MonState) (raw1 raw2 : Bool) (now : ℤ)
    (b : Button) (k : Bool)
    (hmem : (b, k) ∈ (resyncTick s raw1 raw2 now).2.2) :
    rawFor raw1 raw2 b = (s.trk b).last_raw ∧
    RESYNC_SAMPLE_MS ≤ now - (s.trk b).raw_stable_since ∧
    RESYNC_COOLDOWN_MS ≤ now - (s.trk b).last_synth := by
  simp only [resyncTick, List.mem_append] at hmem
  rcases hmem with hA | hB
  · obtain ⟨hb, hcs⟩ := synthForButton_guard _ _ _ _ _ _ hA
    subst hb
    have he : ((s.setTrk .B1 (rawUpdate (s.trk .B1) raw1 now)).setTrk .B2
        (rawUpdate ((s.setTrk .B1 (rawUpdate (s.trk .B1) raw1 now)).trk .B2) raw2 now)).trk .B1
        = rawUpdate (s.trk .B1) raw1 now := by simp
    rw [he] at hcs
    exact canSynth_rawUpdate _ _ _ hcs
  · obtain ⟨hb, hcs⟩ := synthForButton_guard _ _ _ _ _ _ hB
    subst hb
    have hf := synthForButton_other_resync_fields
      ((s.setTrk .B1 (rawUpdate (s.trk .B1) raw1 now)).setTrk .B2
        (rawUpdate ((s.setTrk .B1 (rawUpdate (s.trk .B1) raw1 now)).trk .B2) raw2 now))
      .B1 raw1 now
    rw [other_B1] at hf
    rw [canSynth_congr _ _ now hf.1 hf.2] at hcs
    have he : ((s.setTrk .B1 (rawUpdate (s.trk .B1) raw1 now)).setTrk .B2
        (rawUpdate ((s.setTrk .B1 (rawUpdate (s.trk .B1) raw1 now)).trk .B2) raw2 now)).trk .B2
        = rawUpdate (s.trk .B2) raw2 now := by simp
    rw [he] at hcs
    exact canSynth_rawUpdate _ _ _ hcs

theorem synClassifyRelease_eq (s : MonState) (b : Button) (p now : ℤ) :
    synClassifyRelease s b p now = classifyRelease s b p now now := rfl

theorem synPulse_nonneg (pt : Option ℤ) (now : ℤ) : 0 ≤ synPulse pt now :=
  le_max_left 0 _

theorem synth_press_path (s : MonState) (b : Button) (now : ℤ)
    (hd : (s.trk b).down = false) (hc : canSynth (s.trk b) now = true) :
    (synthForButton s b true now).1
        = (processPress (s.setTrk b { s.trk b with last_synth := now }) b now now).1 ∧
    (synthForButton s b true now).2.1
        = (processPress (s.setTrk b { s.trk b with last_synth := now }) b now now).2 := by
  cases b <;>
  · simp only [trk_B1, trk_B2] at hd hc
    simp only [synthForButton, processPress, other_B1, other_B2, trk_B1, trk_B2,
      setTrk_B1, setTrk_B2, hd, hc, Bool.not_false, Bool.and_self, Bool.and_true,
      Bool.true_and, if_true, ite_true]
    constructor <;>
    · split
      · split <;> (first | (split_ifs <;> rfl) | simp)
      · simp

/-- C4: amended. The resync monitor synthesizes an edge for a button only
when the raw level equals the last latched raw sample (so the stability
timer was not restarted this tick), the raw level has been stable for at
least 30ms, and at least 120ms have elapsed since the last synthesized
edge for that button; a synthesized release is classified by a path
identical to the real-edge classification path taken at `t = now`, with
the synthesized pulse clamped non-negative; a synthesized press runs the
real press-processing path after recording the synthesis time. The guard
measures raw-level stability, not disagreement duration. -/
theorem resync_amended :
    (∀ (s : MonState) (raw1 raw2 : Bool) (now : ℤ) (b : Button) (k : Bool),
        (b, k) ∈ (resyncTick s raw1 raw2 now).2.2 →
        rawFor raw1 raw2 b = (s.trk b).last_raw ∧
        RESYNC_SAMPLE_MS ≤ now - (s.trk b).raw_stable_since ∧
        RESYNC_COOLDOWN_MS ≤ now - (s.trk b).last_synth) ∧
    (∀ (s : MonState) (b : Button) (p now : ℤ),
        synClassifyRelease s b p now = classifyRelease s b p now now) ∧
    (∀ (pt : Option ℤ) (now : ℤ), 0 ≤ synPulse pt now) ∧
    (∀ (s : MonState) (b : Button) (now : ℤ),
        (s.trk b).down = false → canSynth (s.trk b) now = true →
        (synthForButton s b true now).1
          = (processPress (s.setTrk b { s.trk b with last_synth := now }) b now now).1 ∧
        (synthForButton s b true now).2.1
          = (processPress (s.setTrk b { s.trk b with last_synth := now }) b now now).2) :=
  ⟨resync_guard_necessary, synClassifyRelease_eq, synPulse_nonneg, synth_press_path⟩

/-- C4: counterexample to the original claim. A press, 150ms of quiet, and
a release whose raw sample still reads high: the raw level agreed with the
believed state at every earlier tick (`rawOk`), so at the release tick the
disagreement has lasted 0ms — far less than 30ms — yet the resync block
synthesizes a press immediately, because its guard only checks raw-level
stability. -/
theorem resync_claim_counterexample :
    rawOk initState [ctA, ctB] = true ∧
    (stepFull (runFull initState [ctA, ctB]).1 ctC).2.2 = [(.B1, true)] ∧
    (resyncPreState.trk .B1).down = false ∧ ctC.raw1 = true ∧
    rawTickOk (runFull initState [ctA, ctB]).1 ctC = false := by decide

/-- C4 witness: the guard-necessity clause of `resync_amended` applied to
the concrete synthesis of the counterexample run. -/
theorem resync_amended_witness :
    rawFor true false .B1 = (resyncPreState.trk .B1).last_raw ∧
    RESYNC_SAMPLE_MS ≤ 10200 - (resyncPreState.trk .B1).raw_stable_since ∧
    RESYNC_COOLDOWN_MS ≤ 10200 - (resyncPreState.trk .B1).last_synth :=
  resync_amended.1 resyncPreState true false 10200 .B1 true (by decide)


theorem drainQueue_nil (q : List Event) : drainQueue q = [] := by
  induction q with
  | nil => rfl
  | cons a rest ih => simpa [drainQueue] using ih

/-- C6: every transition through `set_state` leaves the event queue empty and
the interrupt flag cleared, and along the whole transition sequence the new
state's run body is started only at the final step, at which point the
interrupt is already cleared and the queue already drained. -/
theorem set_state_clean (s : SysCtl) (h : s.runStarted = false) :
    (set_state s).queue = [] ∧ (set_state s).interrupt = false ∧
    ∀ t ∈ set_state_trace s, t.runStarted = true → t.interrupt = false ∧ t.queue = [] := by
  refine ⟨drainQueue_nil _, rfl, ?_⟩
  intro t ht hr
  simp only [set_state_trace, List.mem_cons, List.mem_singleton, List.not_mem_nil] at ht
  rcases ht with h1 | h2 | h3 | h4 | h5
  · subst h1; simp at hr; exact absurd hr (by simp [h])
  · subst h2; simp at hr; exact absurd hr (by simp [h])
  · subst h3; simp at hr; exact absurd hr (by simp [h])
  · subst h4; exact ⟨rfl, drainQueue_nil _⟩
  · exact absurd h5 (by simp)

/-- C6 witness: `set_state_clean` at a concrete dirty controller. -/
theorem set_state_clean_witness :
    (set_state ⟨true, [Event.tap .B1], false⟩).queue = [] ∧
    (set_state ⟨true, [Event.tap .B1], false⟩).interrupt = false ∧
    ∀ t ∈ set_state_trace ⟨true, [Event.tap .B1], false⟩,
      t.runStarted = true → t.interrupt = false ∧ t.queue = [] :=
  set_state_clean ⟨true, [Event.tap .B1], false⟩ rfl

/-- C5: counterexample to the original claim. With the file present, the
hardware adapter path healthy, `interruptable = true` and the interrupt flag
set while the clip is playing, `play_audio` still runs the adapter path to
clip completion: the call never stops the stream and returns early. -/
theorem play_claim_counterexample :
    play_audio ⟨true, true, false, true, true, true⟩ = .adapterDone ∧
    PlayOutcome.adapterDone ≠ PlayOutcome.fallbackStopped := by
  decide

/-- C5: amended. An interrupt-induced early return happens exactly on the
pygame fallback path: file present, the adapter raised, not on SIM, pygame
healthy, and the interrupt flag set during playback. On a healthy adapter
path the call always blocks until the adapter playback completes, ignoring
`interruptable`. -/
theorem play_interrupt_amended :
    (∀ e : AudioEnv, e.interruptable = true →
        (play_audio e = .fallbackStopped ↔
          e.fileExists = true ∧ e.adapterOk = false ∧ e.sim = false ∧
          e.pygameOk = true ∧ e.interruptDuringPlay = true)) ∧
    (∀ e : AudioEnv, e.fileExists = true → e.adapterOk = true →
        play_audio e = .adapterDone) := by
  constructor
  · rintro ⟨f, a, si, p, i, t⟩ ht
    cases f <;> cases a <;> cases si <;> cases p <;> cases i <;> cases t <;>
      simp_all [play_audio]
  · rintro ⟨f, a, si, p, i, t⟩ hf ha
    cases f <;> cases a <;> cases si <;> cases p <;> cases i <;> cases t <;>
      simp_all [play_audio]

/-- C5 witness: the fallback clause of `play_interrupt_amended` at the one
environment that stops early. -/
theorem play_interrupt_amended_witness :
    play_audio ⟨true, false, false, true, true, true⟩ = .fallbackStopped ↔
      (true = true ∧ false = false ∧ false = false ∧ true = true ∧ true = true) :=
  play_interrupt_amended.1 ⟨true, false, false, true, true, true⟩ rfl

theorem sleepHandle_tap (s : SleepSt) (t : ℤ) (h : s.settle_until ≤ t) :
    sleepHandle s (.tap .B1) t =
      { s with
          wake_taps := if t - s.last_tap_time < SLEEP_TAP_WINDOW then s.wake_taps + 1 else 1
          last_tap_time := t
          wake_requested := s.wake_requested ||
            decide (5 ≤ (if t - s.last_tap_time < SLEEP_TAP_WINDOW then s.wake_taps + 1 else 1)) } := by
  have hns : ¬ t < s.settle_until := not_lt.mpr h
  simp only [sleepHandle, if_neg hns, sleepWake]
  split_ifs with h1 h2 h3 h4 h5 h6 <;> cases hw : s.wake_requested <;> simp_all

theorem tapRun_flag (ts : List ℤ) : ∀ s : SleepSt, (∀ t ∈ ts, s.settle_until ≤ t) →
    (tapRun s ts).wake_requested =
      (s.wake_requested || hits5 s.wake_taps s.last_tap_time ts) := by
  induction ts with
  | nil => intro s _; simp [tapRun, hits5]
  | cons t rest ih =>
      intro s h
      have ht : s.settle_until ≤ t := h t (List.mem_cons_self t rest)
      rw [tapRun, sleepHandle_tap s t ht, ih]
      · simp [hits5, Bool.or_assoc]
      · intro u hu
        exact h u (List.mem_cons_of_mem t hu)

theorem hits5_iff (ts : List ℤ) : ∀ (c : ℕ) (l : ℤ),
    hits5 c l ts = true ↔
      ((∃ w r, ts = w ++ r ∧ w ≠ [] ∧ 5 ≤ w.length + c ∧ (l :: w).Chain' winStep) ∨
        hasWakeWindow ts) := by
  induction ts with
  | nil =>
      intro c l
      rw [show hits5 c l [] = false from rfl]
      simp only [Bool.false_eq_true, false_iff]
      rintro (⟨w, r, hw, hne, _, _⟩ | ⟨p, w, r, hw, hlen, _⟩)
      · exact hne (List.append_eq_nil.mp hw.symm).1
      · have hw2 : w = [] :=
          (List.append_eq_nil.mp (List.append_eq_nil.mp hw.symm).1).2
        simp [hw2] at hlen
  | cons t rest ih =>
      intro c l
      rw [show hits5 c l (t :: rest) =
        (decide (5 ≤ (if t - l < SLEEP_TAP_WINDOW then c + 1 else 1)) ||
          hits5 (if t - l < SLEEP_TAP_WINDOW then c + 1 else 1) t rest) from rfl]
      by_cases hwin : t - l < SLEEP_TAP_WINDOW
      · rw [if_pos hwin]
        constructor
        · intro hL
          rcases Bool.or_eq_true_iff.mp hL with h5 | hrest
          · left
            refine ⟨[t], rest, rfl, by simp, ?_, List.chain'_pair.mpr hwin⟩
            have h5n := of_decide_eq_true h5
            simp only [List.length_cons, List.length_nil]
            omega
          · rcases (ih (c + 1) t).mp hrest with ⟨w, r, hrw, hne, hlen, hch⟩ | hwk
            · left
              refine ⟨t :: w, r, by simp [hrw], by simp, ?_,
                List.chain'_cons.mpr ⟨hwin, hch⟩⟩
              simp only [List.length_cons]
              omega
            · right
              obtain ⟨p, w, r, hrw, hlen, hch⟩ := hwk
              exact ⟨t :: p, w, r, by simp [hrw], hlen, hch⟩
        · intro hR
          rcases hR with ⟨w, r, heq, hne, hlen, hch⟩ | ⟨p, w, r, heq, hlen, hch⟩
          · rcases List.cons_eq_append_iff.mp heq with ⟨hw0, _⟩ | ⟨w1, hw1, hrest⟩
            · exact absurd hw0 hne
            · subst hw1
              rcases w1 with _ | ⟨u, w2⟩
              · simp only [List.length_cons, List.length_nil] at hlen
                have h5 : 5 ≤ c + 1 := by omega
                simp [h5]
              · have hch2 : (t :: u :: w2).Chain' winStep := (List.chain'_cons.mp hch).2
                have hr : hits5 (c + 1) t rest = true := by
                  refine (ih (c + 1) t).mpr (Or.inl ⟨u :: w2, r, hrest, by simp, ?_, hch2⟩)
                  simp only [List.length_cons] at hlen ⊢
                  omega
                simp [hr]
          · rw [List.append_assoc] at heq
            rcases List.cons_eq_append_iff.mp heq with ⟨hp0, hrest⟩ | ⟨p1, hp1, hrest⟩
            · rcases List.cons_eq_append_iff.mp hrest.symm with ⟨hw0, _⟩ | ⟨w1, hw1, hrest2⟩
              · rw [hw0] at hlen; simp at hlen
              · subst hw1
                have hlen1 : w1.length = 4 := by
                  simp only [List.length_cons] at hlen; omega
                have hr : hits5 (c + 1) t rest = true := by
                  refine (ih (c + 1) t).mpr (Or.inl ⟨w1, r, hrest2, ?_, by omega, hch⟩)
                  intro hw0; rw [hw0] at hlen1; simp at hlen1
                simp [hr]
            · subst hp1
              have hr : hits5 (c + 1) t rest = true := by
                refine (ih (c + 1) t).mpr (Or.inr ⟨p1, w, r, ?_, hlen, hch⟩)
                rw [List.append_assoc]; exact hrest
              simp [hr]
      · rw [if_neg hwin]
        constructor
        · intro hL
          rcases Bool.or_eq_true_iff.mp hL with h5 | hrest
          · have h5n := of_decide_eq_true h5; omega
          · rcases (ih 1 t).mp hrest with ⟨w, r, hrw, hne, hlen, hch⟩ | hwk
            · right
              refine ⟨[], t :: w.take 4, w.drop 4 ++ r, ?_, ?_, ?_⟩
              · simp only [List.nil_append, List.cons_append, List.cons.injEq, true_and]
                rw [hrw, ← List.append_assoc, List.take_append_drop]
              · simp only [List.length_cons, List.length_take]
                omega
              · refine hch.prefix ⟨w.drop 4, ?_⟩
                simp only [List.cons_append]
                rw [List.take_append_drop]
            · right
              obtain ⟨p, w, r, hrw, hlen, hch⟩ := hwk
              exact ⟨t :: p, w, r, by simp [hrw], hlen, hch⟩
        · intro hR
          rcases hR with ⟨w, r, heq, hne, hlen, hch⟩ | ⟨p, w, r, heq, hlen, hch⟩
          · rcases List.cons_eq_append_iff.mp heq with ⟨hw0, _⟩ | ⟨w1, hw1, hrest⟩
            · exact absurd hw0 hne
            · subst hw1
              have hws : winStep l t := (List.chain'_cons'.mp hch).1 t (by simp)
              exact absurd hws hwin
          · rw [List.append_assoc] at heq
            rcases List.cons_eq_append_iff.mp heq with ⟨hp0, hrest⟩ | ⟨p1, hp1, hrest⟩
            · rcases List.cons_eq_append_iff.mp hrest.symm with ⟨hw0, _⟩ | ⟨w1, hw1, hrest2⟩
              · rw [hw0] at hlen; simp at hlen
              · subst hw1
                have hlen1 : w1.length = 4 := by
                  simp only [List.length_cons] at hlen; omega
                have hr : hits5 1 t rest = true := by
                  refine (ih 1 t).mpr (Or.inl ⟨w1, r, hrest2, ?_, by omega, hch⟩)
                  intro hw0; rw [hw0] at hlen1; simp at hlen1
                simp [hr]
            · subst hp1
              have hr : hits5 1 t rest = true := by
                refine (ih 1 t).mpr (Or.inr ⟨p1, w, r, ?_, hlen, hch⟩)
                rw [List.append_assoc]; exact hrest
              simp [hr]

theorem sleep_chain_final (t0 : ℤ) (ts : List ℤ) (h : ∀ t ∈ ts, t0 + 500 ≤ t) :
    ((tapRun (sleepInit t0) ts).wake_requested = true ↔ hasWakeWindow ts) := by
  rw [tapRun_flag ts (sleepInit t0) (by simpa [sleepInit] using h)]
  simp only [sleepInit, Bool.false_or]
  rw [hits5_iff ts 0 0]
  constructor
  · rintro (⟨w, r, hw, hne, hlen, hch⟩ | hwk)
    · refine ⟨[], w.take 5, w.drop 5 ++ r, ?_, ?_, ?_⟩
      · simp only [List.nil_append]
        rw [hw, ← List.append_assoc, List.take_append_drop]
      · simp only [List.length_take]
        omega
      · exact (hch.tail).take 5
    · exact hwk
  · exact fun hwk => Or.inr hwk

set_option maxHeartbeats 800000 in
/-- C7: while Sleep is active, any gesture delivered before the settle
deadline leaves the state unchanged; after the settle window a FiveTap on
button 1 requests a wake; a second wake request is a no-op (wake is
idempotent); and over any run of post-settle button-1 Taps the wake is
requested exactly when some five consecutive taps each follow the previous
within the 600ms rolling window. -/
theorem sleep_wake_spec :
    (∀ (s : SleepSt) (e : Event) (now : ℤ), now < s.settle_until →
        sleepHandle s e now = s) ∧
    (∀ (s : SleepSt) (now : ℤ), s.settle_until ≤ now →
        sleepHandle s (.fiveTap .B1) now = sleepWake s) ∧
    (∀ s : SleepSt, sleepWake (sleepWake s) = sleepWake s ∧
        (sleepWake s).wake_requested = true) ∧
    (∀ (t0 : ℤ) (ts : List ℤ), (∀ t ∈ ts, t0 + 500 ≤ t) →
        ((tapRun (sleepInit t0) ts).wake_requested = true ↔ hasWakeWindow ts)) := by
  refine ⟨?_, ?_, ?_, sleep_chain_final⟩
  · intro s e now h
    simp [sleepHandle, if_pos h]
  · intro s now h
    simp [sleepHandle, not_lt.mpr h]
  · intro s
    by_cases h : s.wake_requested <;> simp [sleepWake, h]

/-- C7 witness: five taps 100ms apart starting right at the settle deadline. -/
theorem sleep_wake_spec_witness :
    (tapRun (sleepInit 0) [500, 600, 700, 800, 900]).wake_requested = true ↔
      hasWakeWindow [500, 600, 700, 800, 900] :=
  sleep_wake_spec.2.2.2 0 [500, 600, 700, 800, 900] (by decide)

theorem weight_pos (s : Shuffler) (item : ℕ) (hm : 0 < s.min_weight) :
    0 < weight s item := by
  simp only [weight]
  exact lt_max_of_lt_left hm

/-- C8: amended. Because `_weight` floors every weight at `min_weight`
("never drop to zero"), an item observed into the history remains in the
support of the very next pick whenever `min_weight` is positive — so
`observe(x)` followed by `next()` CAN return `x`. -/
theorem observe_then_next_amended (s : Shuffler) (x : ℕ)
    (hx : x ∈ s.items) (hm : 0 < s.min_weight) :
    x ∈ nextSupport (observeM s x).1 := by
  rw [observeM, if_pos hx]
  refine List.mem_filter.mpr ⟨hx, ?_⟩
  rw [decide_eq_true_eq]
  exact weight_pos _ _ hm

/-- C8 witness: `observe_then_next_amended` on the two-item pool with a
recency window of 1 and the default tuning. -/
theorem observe_then_next_amended_witness :
    0 ∈ nextSupport (observeM (mkShuffler [0, 1] 1) 0).1 :=
  observe_then_next_amended (mkShuffler [0, 1] 1) 0 (by simp [mkShuffler])
    (by norm_num [mkShuffler])

/-- C8: counterexample to the original claim. With the default tuning, a
pool of two items and a recency window of 1, the item just observed keeps
the weight floor `min_weight = 1/20 > 0`, so `random.choices` can select it
on the immediately following `next()`. -/
theorem shuffle_claim_counterexample :
    (mkShuffler [0, 1] 1).items.length = 2 ∧
    1 ≤ (mkShuffler [0, 1] 1).recent_window ∧
    0 ∈ nextSupport (observeM (mkShuffler [0, 1] 1) 0).1 := by
  refine ⟨rfl, le_refl 1, ?_⟩
  rw [observeM, if_pos (by simp [mkShuffler])]
  refine List.mem_filter.mpr ⟨by simp [mkShuffler, note_pick], ?_⟩
  rw [decide_eq_true_eq]
  norm_num [weight, mkShuffler, note_pick, pushRecent]

/-- C10: `observe` raises exactly when the item is not in the pool, and on
that error the shuffler state is unchanged (the membership check precedes
every mutation). -/
theorem observe_raises_iff (s : Shuffler) (x : ℕ) :
    ((observeM s x).2 = true ↔ x ∉ s.items) ∧
    ((observeM s x).2 = true → (observeM s x).1 = s) := by
  by_cases h : x ∈ s.items <;> simp [observeM, h]

/-- C10 witness: `observe_raises_iff` on a concrete pool and a foreign item. -/
theorem observe_raises_iff_witness :
    ((observeM (mkShuffler [0, 1] 1) 7).2 = true ↔ 7 ∉ (mkShuffler [0, 1] 1).items) ∧
    ((observeM (mkShuffler [0, 1] 1) 7).2 = true →
      (observeM (mkShuffler [0, 1] 1) 7).1 = mkShuffler [0, 1] 1) :=
  observe_raises_iff (mkShuffler [0, 1] 1) 7

/-- C9: amended. After the settle window, only a Double on button 2 jumps to
the fixed default selection (index 0, the d20) in Selection mode; a Double
on button 1 is explicitly ignored apart from clearing the interrupt flag. -/
theorem dice_double_amended (s : DiceSt) (now : ℤ) (i : Bool) (r : ℕ)
    (h : s.settle_until ≤ now) :
    diceHandle s (.double .B2) now i r
        = { s with interrupt := false, selected_index := 0, mode := .selection } ∧
    diceHandle s (.double .B1) now i r = { s with interrupt := false } ∧
    dice_names[0]? = some "d20" := by
  refine ⟨?_, ?_, rfl⟩ <;> simp [diceHandle, not_lt.mpr h]

/-- C9 witness: `dice_double_amended` at a concrete post-settle instant. -/
theorem dice_double_amended_witness :
    diceHandle ⟨3, .result, some 5, 250, false⟩ (.double .B2) 1000 false 0
        = { selected_index := 0, mode := .selection, last_result := some 5,
            settle_until := 250, interrupt := false } ∧
    diceHandle ⟨3, .result, some 5, 250, false⟩ (.double .B1) 1000 false 0
        = { selected_index := 3, mode := .result, last_result := some 5,
            settle_until := 250, interrupt := false } ∧
    dice_names[0]? = some "d20" :=
  dice_double_amended ⟨3, .result, some 5, 250, false⟩ 1000 false 0 (by decide)

/-- C9: counterexample to the original claim. A post-settle Double on
button 1 in Result mode on die index 3 neither selects index 0 nor returns
to Selection mode: the handler ignores it. -/
theorem dice_claim_counterexample :
    (diceHandle ⟨3, .result, some 5, 250, false⟩ (.double .B1) 1000 false 0).selected_index
        = 3 ∧
    (diceHandle ⟨3, .result, some 5, 250, false⟩ (.double .B1) 1000 false 0).mode
        = .result := by
  decide

end Ghost
